import Mathlib

set_option autoImplicit false
set_option maxRecDepth 8000

/-!
Shallow embedding of the cooperative kernel in src/OS/kernel.c.

The character framebuffer at 0xB8000 is modelled as a function from linear
cell index (row * 80 + col) to the 16-bit cell value, exactly as the C code
indexes `VGA_MEMORY`.  Hardware port writes (CRTC cursor programming, the
keyboard controller ports, the shutdown ports) have no effect on any state
the kernel later reads, so they are not part of the state.  Loops are
translated as structural recursions on an explicit iteration count equal to
the number of iterations the C loop performs, preserving the write order.
-/

namespace OS

/-- Enum `task_state_t` (kernel.c lines 5-10). -/
inductive task_state_t where
  | dead
  | ready
  | running
  | blocked
deriving DecidableEq, Repr

/-- Tags for the entry function pointers that are ever passed to
`task_create` in the kernel (`task_shell`, `task_heartbeat0`,
`task_heartbeat1`).  A task record stores an optional tag, `none` standing
for the C null pointer stored by `task_kill` and at boot. -/
inductive entry_t where
  | shell
  | hb0
  | hb1
deriving DecidableEq, Repr

/-- Struct `task` (kernel.c lines 12-17).  `name` is the `const char*`
field, `none` for null; `esp` is the saved stack pointer as a 32-bit value. -/
structure task_t where
  esp : Nat
  state : task_state_t
  name : Option String
  entry : Option entry_t
deriving DecidableEq, Repr

def MAX_TASKS : Nat := 8
def HB_COL : Nat := 60
def HB0_ROW_BASE : Nat := 0
def HB1_ROW_BASE : Nat := 4
def HB_MAX_LINES : Nat := 4
def STACK_SIZE : Nat := 4096
def VGA_WIDTH : Nat := 80
def VGA_HEIGHT : Nat := 25
def TERM_HEIGHT : Nat := VGA_HEIGHT - 1
def INPUT_MAX : Nat := 128

/-- A fully zeroed task slot: the value every slot has at boot and after
`task_kill` (state TASK_DEAD = 0, null entry, null name, esp 0). -/
def deadTask : task_t := { esp := 0, state := .dead, name := none, entry := none }

/-- One store into a Nat-indexed memory. -/
def wr (m : Nat → Nat) (i v : Nat) : Nat → Nat :=
  fun j => if j = i then v else m j

/-- One store into the task table. -/
def wrT (f : Nat → task_t) (i : Nat) (t : task_t) : Nat → task_t :=
  fun j => if j = i then t else f j

/-- `vga_entry` (kernel.c line 85): low byte character, high byte colour. -/
def vga_entry (c color : Nat) : Nat := c ||| (color <<< 8)

/-- Display driver state: the framebuffer (linear cell index to cell value)
plus the logical cursor and palette byte (globals `term_row`, `term_col`,
`term_color`). -/
structure Disp where
  mem : Nat → Nat
  term_row : Nat
  term_col : Nat
  term_color : Nat

/-- `terminal_putc_at` (kernel.c lines 173-176): absolute write, no-op when
out of bounds. -/
def terminal_putc_at (d : Disp) (row col c : Nat) : Disp :=
  if row ≥ VGA_HEIGHT ∨ col ≥ VGA_WIDTH then d
  else { d with mem := wr d.mem (row * VGA_WIDTH + col) (vga_entry c d.term_color) }

/-- The inner column loop of `terminal_clear_row` / `terminal_clear`
(kernel.c lines 90-92, 100-102) and the space-filling while loop of
`terminal_newline` (lines 140-143): starting at `col` on row `row`, store
`k` space cells.  The iteration count `k` equals the number of loop
iterations of the C loop being translated. -/
def fillColsMem (m : Nat → Nat) (color row col : Nat) : Nat → (Nat → Nat)
  | 0 => m
  | k + 1 => fillColsMem (wr m (row * VGA_WIDTH + col) (vga_entry 32 color)) color row (col + 1) k

/-- The row loop of `terminal_clear` (25 rows) and
`terminal_clear_text_area` (24 rows): clear `k` full rows starting at `y`. -/
def clearRowsMem (m : Nat → Nat) (color y : Nat) : Nat → (Nat → Nat)
  | 0 => m
  | k + 1 => clearRowsMem (fillColsMem m color y 0 VGA_WIDTH) color (y + 1) k

/-- `terminal_clear_row` (kernel.c lines 99-103). -/
def terminal_clear_row (d : Disp) (row : Nat) : Disp :=
  { d with mem := fillColsMem d.mem d.term_color row 0 VGA_WIDTH }

/-- `terminal_clear` (kernel.c lines 89-97). -/
def terminal_clear (d : Disp) : Disp :=
  { d with mem := clearRowsMem d.mem d.term_color 0 VGA_HEIGHT, term_row := 0, term_col := 0 }

/-- `terminal_clear_text_area` (kernel.c lines 105-111). -/
def terminal_clear_text_area (d : Disp) : Disp :=
  { d with mem := clearRowsMem d.mem d.term_color 0 TERM_HEIGHT, term_row := 0, term_col := 0 }

/-- The inner column loop of `terminal_scroll_up` (kernel.c lines 130-132):
copy `k` cells of row `y` one row up, left to right, starting at column `x`. -/
def copyColsMem (m : Nat → Nat) (y x : Nat) : Nat → (Nat → Nat)
  | 0 => m
  | k + 1 =>
    copyColsMem (wr m ((y - 1) * VGA_WIDTH + x) (m (y * VGA_WIDTH + x))) y (x + 1) k

/-- The outer row loop of `terminal_scroll_up` (kernel.c lines 129-133):
`k` rows starting at row `y`, each copied one row up. -/
def scrollRowsMem (m : Nat → Nat) (y : Nat) : Nat → (Nat → Nat)
  | 0 => m
  | k + 1 => scrollRowsMem (copyColsMem m y 0 VGA_WIDTH) (y + 1) k

/-- `terminal_scroll_up` (kernel.c lines 128-136): rows 1..23 are copied up
by one, then the last text-area row (23) is cleared. -/
def terminal_scroll_up (d : Disp) : Disp :=
  terminal_clear_row { d with mem := scrollRowsMem d.mem 1 (TERM_HEIGHT - 1) } (TERM_HEIGHT - 1)

/-- `terminal_newline` (kernel.c lines 138-156).  The while loop fills the
rest of the current line with spaces (80 - term_col iterations); then col
becomes 0 and either the text area scrolls (cursor stays on row 23) or the
row advances.  The trailing `vga_cursor_set_pos` only programs CRTC ports. -/
def terminal_newline (d : Disp) : Disp :=
  let d1 : Disp :=
    { d with mem := fillColsMem d.mem d.term_color d.term_row d.term_col (VGA_WIDTH - d.term_col),
             term_col := 0 }
  if d.term_row + 1 ≥ TERM_HEIGHT then
    { terminal_scroll_up d1 with term_row := TERM_HEIGHT - 1 }
  else
    { d1 with term_row := d.term_row + 1 }

/-- `terminal_putc` (kernel.c lines 158-171). -/
def terminal_putc (d : Disp) (c : Nat) : Disp :=
  if c = 10 then terminal_newline d
  else
    let d1 : Disp :=
      { d with mem := wr d.mem (d.term_row * VGA_WIDTH + d.term_col) (vga_entry c d.term_color),
               term_col := d.term_col + 1 }
    if d1.term_col ≥ VGA_WIDTH then terminal_newline d1 else d1

/-- The character loop of `terminal_write` (kernel.c lines 178-182). -/
def terminal_write_list (d : Disp) : List Char → Disp
  | [] => d
  | c :: cs => terminal_write_list (terminal_putc d c.toNat) cs

/-- `terminal_write` (kernel.c lines 178-182). -/
def terminal_write (d : Disp) (s : String) : Disp := terminal_write_list d s.data

/-- The character loop of `terminal_write_at` (kernel.c lines 184-188) and
of the HUD name rendering (lines 493-496): absolute writes advancing the
column, stopping at the string terminator or the right screen edge. -/
def terminal_write_at_list (d : Disp) (row col : Nat) : List Char → Disp
  | [] => d
  | c :: cs =>
    if col < VGA_WIDTH then terminal_write_at_list (terminal_putc_at d row col c.toNat) row (col + 1) cs
    else d

/-- `terminal_write_at` (kernel.c lines 184-188). -/
def terminal_write_at (d : Disp) (row col : Nat) (s : String) : Disp :=
  terminal_write_at_list d row col s.data

/-- The column loop of `overlay_clear_line` (kernel.c lines 122-126) and of
the HUD clearing loop (lines 473-477): `k` absolute space writes from
`(row, col)` rightwards. -/
def put_spaces (d : Disp) (row col : Nat) : Nat → Disp
  | 0 => d
  | k + 1 => put_spaces (terminal_putc_at d row col 32) row (col + 1) k

/-- `overlay_clear_line` (kernel.c lines 122-126). -/
def overlay_clear_line (d : Disp) (row : Nat) : Disp :=
  put_spaces d row HB_COL (VGA_WIDTH - HB_COL)

/-- Whole-kernel state: display, the task table `tasks`, and the globals
`task_count`, `current_task`, `hud_dirty` (kernel.c lines 26-29).  The
per-task stack byte regions are not observable through any claim and are
represented only by the saved `esp` values. -/
structure K where
  disp : Disp
  tasks : Nat → task_t
  task_count : Int
  current_task : Int
  hud_dirty : Bool

/-- `state_char` (kernel.c lines 435-443).  The C `default` arm returning
63 is unreachable for the four enum values. -/
def state_char : task_state_t → Nat
  | .ready => 82
  | .running => 42
  | .blocked => 66
  | .dead => 68

/-- The HUD clearing loop of `debug_hud_draw` (kernel.c lines 473-477):
`k` rows of 26 spaces starting at `(row, col)`. -/
def hud_clear (d : Disp) (row col : Nat) : Nat → Disp
  | 0 => d
  | k + 1 => hud_clear (put_spaces d row col 26) (row + 1) col k

/-- One task line of the HUD (kernel.c lines 486-496). -/
def hud_line (d : Disp) (row col i : Nat) (t : task_t) : Disp :=
  let d := terminal_putc_at d row col 35
  let d := terminal_putc_at d row (col + 1) (48 + i % 10)
  let d := terminal_putc_at d row (col + 2) 32
  let d := terminal_putc_at d row (col + 3) (state_char t.state)
  let d := terminal_putc_at d row (col + 4) 32
  terminal_write_at_list d row (col + 5) (match t.name with | some nm => nm.data | none => ['?'])

/-- The task-listing loop of `debug_hud_draw` (kernel.c lines 482-499):
slot counter `i`, HUD line counter `line`, `k` remaining slots. -/
def hud_lines (tasks : Nat → task_t) (srow scol : Nat) (d : Disp) (i line : Nat) : Nat → Disp
  | 0 => d
  | k + 1 =>
    if line < 6 then
      if (tasks i).state = .dead then hud_lines tasks srow scol d (i + 1) line k
      else hud_lines tasks srow scol (hud_line d (srow + line) scol i (tasks i)) (i + 1) (line + 1) k
    else d

/-- `debug_hud_draw` (kernel.c lines 463-500): redraw the 26x6 HUD
rectangle anchored bottom-right when `hud_dirty` is set. -/
def debug_hud_draw (s : K) : K :=
  if s.hud_dirty then
    let srow := VGA_HEIGHT - 6
    let scol := VGA_WIDTH - 26
    let d := hud_clear s.disp srow scol 6
    let d := terminal_write_at d srow scol "Tasks"
    let d := hud_lines s.tasks srow scol d 0 1 MAX_TASKS
    { s with hud_dirty := false, disp := d }
  else s

/-- The slot-scanning loop of `task_alloc_slot` (kernel.c lines 348-353):
slot counter `i`, `k` remaining slots. -/
def task_alloc_go (tasks : Nat → task_t) (i : Nat) : Nat → Int
  | 0 => -1
  | k + 1 => if (tasks i).state = .dead then Int.ofNat i else task_alloc_go tasks (i + 1) k

/-- `task_alloc_slot` (kernel.c lines 348-353). -/
def task_alloc_slot (s : K) : Int := task_alloc_go s.tasks 0 MAX_TASKS

/-- The slot-scanning loop of `hb_instance_index` (kernel.c lines 603-616):
count non-DEAD, non-null-named slots whose name equals `nm`, returning the
count at the caller's own slot. -/
def hb_instance_go (tasks : Nat → task_t) (nm : String) (my_id : Int) : List Nat → Int → Int
  | [], _ => -1
  | i :: rest, idx =>
    if (tasks i).state = .dead then hb_instance_go tasks nm my_id rest idx
    else
      match (tasks i).name with
      | none => hb_instance_go tasks nm my_id rest idx
      | some n =>
        if n = nm then
          if Int.ofNat i = my_id then idx else hb_instance_go tasks nm my_id rest (idx + 1)
        else hb_instance_go tasks nm my_id rest idx

/-- `hb_instance_index` (kernel.c lines 603-616). -/
def hb_instance_index (nm : String) (my_id : Int) (s : K) : Int :=
  hb_instance_go s.tasks nm my_id (List.range MAX_TASKS) 0

/-- `task_kill` (kernel.c lines 355-379).  Returns the C int result (0 or 1)
together with the new state.  The overlay-clearing branches only write the
display; the slot is then fully zeroed and the HUD marked dirty. -/
def task_kill (id : Int) (s : K) : Int × K :=
  if id < 0 ∨ (MAX_TASKS : Int) ≤ id then (0, s)
  else if (s.tasks id.toNat).state = .dead then (0, s)
  else if id = s.current_task then (0, s)
  else
    let d1 :=
      if (s.tasks id.toNat).name = some "heartbeat0" then
        let idx := hb_instance_index "heartbeat0" id s
        if 0 ≤ idx ∧ idx < (HB_MAX_LINES : Int) then overlay_clear_line s.disp (HB0_ROW_BASE + idx.toNat)
        else s.disp
      else s.disp
    let d2 :=
      if (s.tasks id.toNat).name = some "heartbeat1" then
        let idx := hb_instance_index "heartbeat1" id s
        if 0 ≤ idx ∧ idx < (HB_MAX_LINES : Int) then overlay_clear_line d1 (HB1_ROW_BASE + idx.toNat)
        else d1
      else d1
    (1, { s with disp := d2, tasks := wrT s.tasks id.toNat deadTask, hud_dirty := true })

/-- Base address of the static `stacks` array; the linker fixes the
concrete value, which no claim observes.  `initEsp id` is the stack pointer
stored by `task_create` after synthesizing the ten-word initial frame
(return address, eflags, eight registers: kernel.c lines 403-426). -/
def STACKS_BASE : Nat := 1048576

def initEsp (id : Nat) : Nat := STACKS_BASE + id * STACK_SIZE + STACK_SIZE - 40

/-- `task_create` (kernel.c lines 393-433).  On success the slot gets the
entry, state READY, the name, and the synthesized initial stack pointer;
`task_count` is bumped to `id + 1` when larger and the HUD marked dirty. -/
def task_create (entry : entry_t) (name : String) (s : K) : Int × K :=
  let id := task_alloc_slot s
  if id < 0 then (-1, s)
  else
    let t : task_t := { esp := initEsp id.toNat, state := .ready, name := some name, entry := some entry }
    let s1 : K := { s with tasks := wrT s.tasks id.toNat t }
    let s2 : K := { s1 with task_count := if id + 1 > s1.task_count then id + 1 else s1.task_count }
    (id, { s2 with hud_dirty := true })

/-- The next-task search loop of `schedule` (kernel.c lines 511-518):
step counter starting at 1, `k` remaining steps, first READY slot at
`(prev + step) mod 8` wins. -/
def schedNextGo (tasks : Nat → task_t) (prev : Int) (step : Nat) : Nat → Int
  | 0 => -1
  | k + 1 =>
    let idx := (prev + (step : Int)) % (MAX_TASKS : Int)
    if (tasks idx.toNat).state = .ready then idx else schedNextGo tasks prev (step + 1) k

/-- The second half of `schedule` (kernel.c lines 510-542), from the
next-task search onward, given the state `s1` after the prev-marking step:
pick the next READY slot, or keep / idle; then redraw the HUD and perform
the context switch. -/
def schedule_pick (sp : Nat) (prev : Int) (s1 : K) : K :=
  let next := schedNextGo s1.tasks prev 1 MAX_TASKS
  if next = -1 then
    if 0 ≤ prev ∧ (s1.tasks prev.toNat).state ≠ .dead then
      debug_hud_draw { s1 with tasks := wrT s1.tasks prev.toNat { s1.tasks prev.toNat with state := .running } }
    else debug_hud_draw s1
  else
    let s2 : K :=
      { s1 with current_task := next,
                tasks := wrT s1.tasks next.toNat { s1.tasks next.toNat with state := .running } }
    let s3 := debug_hud_draw s2
    if prev = -1 then s3
    else if prev ≠ next then
      { s3 with tasks := wrT s3.tasks prev.toNat { s3.tasks prev.toNat with esp := sp } }
    else s3

/-- `schedule` (kernel.c lines 502-543).  `sp` is the stack-pointer value
that the external `ctx_switch` primitive stores through its first argument
into `tasks[prev].esp` when a real switch happens; on the very first switch
(prev = -1) the save target is a dummy local, so no task field changes. -/
def schedule (sp : Nat) (s : K) : K :=
  let prev := s.current_task
  let s1 : K :=
    if 0 ≤ prev ∧ (s.tasks prev.toNat).state = .running then
      { s with tasks := wrT s.tasks prev.toNat { s.tasks prev.toNat with state := .ready } }
    else s
  schedule_pick sp prev s1

/-- One iteration of the body of `task_heartbeat0` (kernel.c lines 620-632)
up to the counter increment: read the own slot id from `current_task`,
compute the instance index, and when it selects an overlay line, clear it
and render the heartbeat text at column 60.  `n` is the task-local counter. -/
def hb0_tick (n : Nat) (s : K) : K :=
  let me := s.current_task
  let idx := hb_instance_index "heartbeat0" me s
  if 0 ≤ idx ∧ idx < (HB_MAX_LINES : Int) then
    let row := HB0_ROW_BASE + idx.toNat
    let d := overlay_clear_line s.disp row
    let d := terminal_write_at d row HB_COL "HB0 #"
    let d := terminal_putc_at d row (HB_COL + 5) (48 + (me % 10).toNat)
    let d := terminal_write_at d row (HB_COL + 6) " : "
    let d := terminal_putc_at d row (HB_COL + 9) (48 + n % 10)
    { s with disp := d }
  else s

/-- One iteration of the body of `task_heartbeat1` (kernel.c lines 638-650),
analogous to `hb0_tick` with row base 4. -/
def hb1_tick (n : Nat) (s : K) : K :=
  let me := s.current_task
  let idx := hb_instance_index "heartbeat1" me s
  if 0 ≤ idx ∧ idx < (HB_MAX_LINES : Int) then
    let row := HB1_ROW_BASE + idx.toNat
    let d := overlay_clear_line s.disp row
    let d := terminal_write_at d row HB_COL "HB1 #"
    let d := terminal_putc_at d row (HB_COL + 5) (48 + (me % 10).toNat)
    let d := terminal_write_at d row (HB_COL + 6) " : "
    let d := terminal_putc_at d row (HB_COL + 9) (48 + n % 10)
    { s with disp := d }
  else s

/-- The global state at the C entry: zero-initialized statics (all task
slots DEAD and zeroed, `current_task` -1, `hud_dirty` 1, colour 0x0F).
The pre-boot framebuffer content is irrelevant because `kmain` clears it
first; it is modelled as all-zero cells. -/
def K0 : K :=
  { disp := { mem := fun _ => 0, term_row := 0, term_col := 0, term_color := 15 },
    tasks := fun _ => deadTask,
    task_count := 0,
    current_task := -1,
    hud_dirty := true }

/-- The state built by `kmain` (kernel.c lines 734-758) up to just before
the three `task_create` calls: clear the screen, print the greeting, and
re-zero the task table and scheduler globals.  The cursor port programming
has no modelled effect. -/
def kinit : K :=
  let d := terminal_clear K0.disp
  let d := terminal_write d "Hello World!\n"
  let d := terminal_write d "Current kernel features:\n"
  let d := terminal_write d " - Echo user input\n - Shut down system\n - Tasking/Scheduling\n\n"
  let d := terminal_write d "Kernel starting tasks...\n"
  { K0 with disp := d, tasks := fun _ => deadTask, task_count := 0, current_task := -1 }

/-- The state after `kmain` finishes booting (kernel.c lines 760-766):
shell, heartbeat0 and heartbeat1 created in slots 0, 1, 2, followed by the
first `schedule` call, which switches one-way into the shell. -/
def bootState : K :=
  schedule 0 (task_create .hb1 "heartbeat1"
    (task_create .hb0 "heartbeat0"
      (task_create .shell "shell" kinit).2).2).2

/-- Result of the first `spawn hb0` entered at the shell: the shell (slot 0,
current) calls `task_create(task_heartbeat0, "heartbeat0")`. -/
def spawn1 : Int × K := task_create .hb0 "heartbeat0" bootState

/-- Result of the second `spawn hb0`. -/
def spawn2 : Int × K := task_create .hb0 "heartbeat0" spawn1.2

/-- The cooperative rotation after the two spawns, as the scheduler next
visits each task: the shell yields, the original heartbeat0 (slot 1, with
task-local counter `n1`) ticks, then heartbeat1 (slot 2, counter `n2`),
then the two new heartbeat0 instances (slots 3 and 4) run their first
iteration with counter 0.  The stack pointers saved by `ctx_switch` do not
affect anything observed, so 0 is passed for them. -/
def c1sA : K := schedule 0 spawn2.2

def c1sB (n1 : Nat) : K := hb0_tick n1 c1sA

def c1sC (n1 : Nat) : K := schedule 0 (c1sB n1)

def c1sD (n1 n2 : Nat) : K := hb1_tick n2 (c1sC n1)

def c1sE (n1 n2 : Nat) : K := schedule 0 (c1sD n1 n2)

def c1sF (n1 n2 : Nat) : K := hb0_tick 0 (c1sE n1 n2)

def c1sG (n1 n2 : Nat) : K := schedule 0 (c1sF n1 n2)

def scen1End (n1 n2 : Nat) : K := hb0_tick 0 (c1sG n1 n2)

/-- Overlay line `row` shows the text `HB<v> #<i> : <n>`: the ten content
cells written by a heartbeat at column 60 (codes: H B digit space hash
digit space colon space digit, colour 0x0F). -/
def rowShowsHB (d : Disp) (row v i n : Nat) : Prop :=
  d.mem (row * VGA_WIDTH + 60) = vga_entry 72 15 ∧
  d.mem (row * VGA_WIDTH + 61) = vga_entry 66 15 ∧
  d.mem (row * VGA_WIDTH + 62) = vga_entry (48 + v) 15 ∧
  d.mem (row * VGA_WIDTH + 63) = vga_entry 32 15 ∧
  d.mem (row * VGA_WIDTH + 64) = vga_entry 35 15 ∧
  d.mem (row * VGA_WIDTH + 65) = vga_entry (48 + i) 15 ∧
  d.mem (row * VGA_WIDTH + 66) = vga_entry 32 15 ∧
  d.mem (row * VGA_WIDTH + 67) = vga_entry 58 15 ∧
  d.mem (row * VGA_WIDTH + 68) = vga_entry 32 15 ∧
  d.mem (row * VGA_WIDTH + 69) = vga_entry (48 + n) 15

/-- Scenario 2 state with the rotation back at the shell (slots 0-4 live:
shell, heartbeat0, heartbeat1, heartbeat0, heartbeat0; current task 0),
from which the shell issues `kill 3`. -/
def scen2Pre (n1 n2 : Nat) : K := schedule 0 (scen1End n1 n2)

/-- The `kill 3` call made by the shell in scenario state 2. -/
def scen2Kill (n1 n2 : Nat) : Int × K := task_kill 3 (scen2Pre n1 n2)

/-- The rotation after `kill 3`: shell yields, slot 1 ticks (counter now
n1+1), heartbeat1 ticks, then the surviving new heartbeat0 in slot 4 runs
its next iteration (counter now 1); slot 3 is DEAD and is skipped. -/
def c2sA (n1 n2 : Nat) : K := schedule 0 (scen2Kill n1 n2).2

def c2sB (n1 n2 : Nat) : K := hb0_tick (n1 + 1) (c2sA n1 n2)

def c2sC (n1 n2 : Nat) : K := schedule 0 (c2sB n1 n2)

def c2sD (n1 n2 : Nat) : K := hb1_tick (n2 + 1) (c2sC n1 n2)

def c2sE (n1 n2 : Nat) : K := schedule 0 (c2sD n1 n2)

def scen2End (n1 n2 : Nat) : K := hb0_tick 1 (c2sE n1 n2)

/-! ## Reachability and the scheduling invariants (C3, C6) -/

/-- The states reachable from the boot-initialized state by the task-system
operations `task_create`, `task_kill` and `schedule` (with an arbitrary
stack-pointer value saved by the context switch).  `kmain` itself reaches
the fully booted state `bootState` from `kinit` by three `create` steps
and one `sched` step, so every state of the running kernel is here. -/
inductive Reach : K → Prop where
  | boot : Reach kinit
  | create (e : entry_t) (nm : String) {s : K} : Reach s → Reach (task_create e nm s).2
  | kill (id : Int) {s : K} : Reach s → Reach (task_kill id s).2
  | sched (sp : Nat) {s : K} : Reach s → Reach (schedule sp s)

/-- The task-system invariant: a RUNNING slot is the current slot; the
current index is -1 or a live in-range slot; DEAD slots are fully zeroed. -/
def KInv (s : K) : Prop :=
  (∀ i, i < MAX_TASKS → (s.tasks i).state = .running → (i : Int) = s.current_task) ∧
  (s.current_task = -1 ∨
    (0 ≤ s.current_task ∧ s.current_task < (MAX_TASKS : Int) ∧
      (s.tasks s.current_task.toNat).state ≠ .dead)) ∧
  (∀ i, i < MAX_TASKS → (s.tasks i).state = .dead → s.tasks i = deadTask)

theorem KInv_mk (s : K) (T : Nat → task_t) (c : Int) (hT : s.tasks = T)
    (hc : s.current_task = c)
    (k1 : ∀ i, i < MAX_TASKS → (T i).state = .running → (i : Int) = c)
    (k2 : c = -1 ∨ (0 ≤ c ∧ c < (MAX_TASKS : Int) ∧ (T c.toNat).state ≠ .dead))
    (k3 : ∀ i, i < MAX_TASKS → (T i).state = .dead → T i = deadTask) : KInv s := by
  refine ⟨?_, ?_, ?_⟩
  · rw [hT, hc]; exact k1
  · rw [hT, hc]; exact k2
  · rw [hT]; exact k3

theorem debug_hud_draw_tasks (s : K) : (debug_hud_draw s).tasks = s.tasks := by
  unfold debug_hud_draw; split <;> rfl

theorem debug_hud_draw_current (s : K) : (debug_hud_draw s).current_task = s.current_task := by
  unfold debug_hud_draw; split <;> rfl

theorem KInv_debug_hud_draw (s : K) (h : KInv s) : KInv (debug_hud_draw s) :=
  KInv_mk _ s.tasks s.current_task (debug_hud_draw_tasks s) (debug_hud_draw_current s)
    h.1 h.2.1 h.2.2

theorem wrT_eq (f : Nat → task_t) (i : Nat) (t : task_t) (j : Nat) :
    wrT f i t j = if j = i then t else f j := rfl

theorem task_alloc_go_cases (tasks : Nat → task_t) :
    ∀ (k i : Nat), task_alloc_go tasks i k = -1 ∨
      ∃ m, i ≤ m ∧ m < i + k ∧ task_alloc_go tasks i k = (m : Int) ∧ (tasks m).state = .dead := by
  intro k
  induction k with
  | zero => intro i; left; rfl
  | succ k ih =>
    intro i
    simp only [task_alloc_go, Int.ofNat_eq_coe]
    by_cases hd : (tasks i).state = .dead
    · rw [if_pos hd]
      exact Or.inr ⟨i, le_refl i, by omega, rfl, hd⟩
    · rw [if_neg hd]
      rcases ih (i + 1) with h | ⟨m, h1, h2, h3, h4⟩
      · exact Or.inl h
      · exact Or.inr ⟨m, by omega, by omega, h3, h4⟩

theorem task_alloc_slot_cases (s : K) :
    task_alloc_slot s = -1 ∨
      ∃ m, m < MAX_TASKS ∧ task_alloc_slot s = (m : Int) ∧ (s.tasks m).state = .dead := by
  rcases task_alloc_go_cases s.tasks MAX_TASKS 0 with h | ⟨m, h1, h2, h3, h4⟩
  · exact Or.inl h
  · exact Or.inr ⟨m, by omega, h3, h4⟩

theorem task_create_fail (s : K) (e : entry_t) (nm : String)
    (halloc : task_alloc_slot s = -1) : task_create e nm s = (-1, s) := by
  unfold task_create
  rw [halloc]
  norm_num

theorem task_create_succ (s : K) (e : entry_t) (nm : String) (m : Nat)
    (heq : task_alloc_slot s = (m : Int)) :
    (task_create e nm s).1 = (m : Int) ∧
    (task_create e nm s).2.tasks =
      wrT s.tasks m { esp := initEsp m, state := .ready, name := some nm, entry := some e } ∧
    (task_create e nm s).2.current_task = s.current_task := by
  unfold task_create
  rw [heq, if_neg (by omega)]
  have ht : ((m : Int)).toNat = m := by omega
  rw [ht]
  exact ⟨rfl, rfl, rfl⟩

theorem KInv_kinit : KInv kinit := by
  refine ⟨fun i _ hr => ?_, Or.inl rfl, fun i _ _ => rfl⟩
  have h : kinit.tasks i = deadTask := rfl
  rw [h] at hr
  exact nomatch hr

theorem KInv_create (s : K) (e : entry_t) (nm : String) (h : KInv s) :
    KInv (task_create e nm s).2 := by
  obtain ⟨h1, h2, h3⟩ := h
  rcases task_alloc_slot_cases s with halloc | ⟨m, hm8, heq, hdead⟩
  · rw [task_create_fail s e nm halloc]
    exact ⟨h1, h2, h3⟩
  · obtain ⟨-, ht, hc⟩ := task_create_succ s e nm m heq
    refine KInv_mk _ _ _ ht hc ?_ ?_ ?_
    · intro i hi hr
      rw [wrT_eq] at hr
      by_cases him : i = m
      · rw [if_pos him] at hr
        exact nomatch hr
      · rw [if_neg him] at hr
        exact h1 i hi hr
    · rcases h2 with hm1 | ⟨hc0, hc8, hcd⟩
      · exact Or.inl hm1
      · refine Or.inr ⟨hc0, hc8, ?_⟩
        rw [wrT_eq]
        by_cases him : s.current_task.toNat = m
        · rw [if_pos him]
          intro hh; exact nomatch hh
        · rw [if_neg him]
          exact hcd
    · intro i hi hd
      rw [wrT_eq] at hd ⊢
      by_cases him : i = m
      · rw [if_pos him] at hd
        exact nomatch hd
      · rw [if_neg him] at hd ⊢
        exact h3 i hi hd

theorem KInv_kill (s : K) (id : Int) (h : KInv s) : KInv (task_kill id s).2 := by
  obtain ⟨h1, h2, h3⟩ := h
  unfold task_kill
  by_cases g1 : id < 0 ∨ (MAX_TASKS : Int) ≤ id
  · rw [if_pos g1]; exact ⟨h1, h2, h3⟩
  · rw [if_neg g1]
    by_cases g2 : (s.tasks id.toNat).state = .dead
    · rw [if_pos g2]; exact ⟨h1, h2, h3⟩
    · rw [if_neg g2]
      by_cases g3 : id = s.current_task
      · rw [if_pos g3]; exact ⟨h1, h2, h3⟩
      · rw [if_neg g3]
        refine KInv_mk _ (wrT s.tasks id.toNat deadTask) s.current_task rfl rfl ?_ ?_ ?_
        · intro i hi hr
          rw [wrT_eq] at hr
          by_cases him : i = id.toNat
          · rw [if_pos him] at hr
            exact nomatch hr
          · rw [if_neg him] at hr
            exact h1 i hi hr
        · rcases h2 with hm1 | ⟨hc0, hc8, hcd⟩
          · exact Or.inl hm1
          · refine Or.inr ⟨hc0, hc8, ?_⟩
            rw [wrT_eq]
            have him : s.current_task.toNat ≠ id.toNat := by omega
            rw [if_neg him]
            exact hcd
        · intro i hi hd
          rw [wrT_eq] at hd ⊢
          by_cases him : i = id.toNat
          · rw [if_pos him]
          · rw [if_neg him] at hd ⊢
            exact h3 i hi hd

theorem schedNextGo_cases (tasks : Nat → task_t) (prev : Int) :
    ∀ (k step : Nat),
      schedNextGo tasks prev step k = -1 ∨
      (0 ≤ schedNextGo tasks prev step k ∧ schedNextGo tasks prev step k < (MAX_TASKS : Int) ∧
        (tasks (schedNextGo tasks prev step k).toNat).state = .ready) := by
  intro k
  induction k with
  | zero => intro step; left; rfl
  | succ k ih =>
    intro step
    simp only [schedNextGo]
    split_ifs with h
    · right
      refine ⟨Int.emod_nonneg _ (by norm_num [MAX_TASKS]), ?_, h⟩
      exact Int.emod_lt_of_pos _ (by norm_num [MAX_TASKS])
    · exact ih (step + 1)

theorem schedule_pick_inv (sp : Nat) (prev : Int) (s1 : K)
    (hnorun : ∀ i, i < MAX_TASKS → (s1.tasks i).state ≠ .running)
    (hdz : ∀ i, i < MAX_TASKS → (s1.tasks i).state = .dead → s1.tasks i = deadTask)
    (hcur : s1.current_task = prev)
    (hprev : prev = -1 ∨
      (0 ≤ prev ∧ prev < (MAX_TASKS : Int) ∧ (s1.tasks prev.toNat).state ≠ .dead)) :
    KInv (schedule_pick sp prev s1) := by
  unfold schedule_pick
  by_cases hnext : schedNextGo s1.tasks prev 1 MAX_TASKS = -1
  · rw [if_pos hnext]
    by_cases hkeep : 0 ≤ prev ∧ (s1.tasks prev.toNat).state ≠ .dead
    · rw [if_pos hkeep]
      apply KInv_debug_hud_draw
      obtain ⟨hp0, hkd⟩ := hkeep
      have hp8 : prev < (MAX_TASKS : Int) := by
        rcases hprev with hh | ⟨-, h8, -⟩
        · omega
        · exact h8
      refine KInv_mk _
        (wrT s1.tasks prev.toNat { s1.tasks prev.toNat with state := .running }) prev
        rfl hcur ?_ ?_ ?_
      · intro i hi hr
        rw [wrT_eq] at hr
        by_cases him : i = prev.toNat
        · subst him; omega
        · rw [if_neg him] at hr
          exact absurd hr (hnorun i hi)
      · refine Or.inr ⟨hp0, hp8, ?_⟩
        rw [wrT_eq, if_pos rfl]
        intro hh; exact nomatch hh
      · intro i hi hd
        rw [wrT_eq] at hd ⊢
        by_cases him : i = prev.toNat
        · rw [if_pos him] at hd
          exact nomatch hd
        · rw [if_neg him] at hd ⊢
          exact hdz i hi hd
    · rw [if_neg hkeep]
      apply KInv_debug_hud_draw
      refine ⟨fun i hi hr => absurd hr (hnorun i hi), ?_, hdz⟩
      rcases hprev with hm | ⟨hp0, hp8, hnd⟩
      · exact Or.inl (by rw [hcur, hm])
      · exact absurd ⟨hp0, hnd⟩ hkeep
  · rw [if_neg hnext]
    rcases schedNextGo_cases s1.tasks prev MAX_TASKS 1 with he | ⟨hn0, hn8, hnr⟩
    · exact absurd he hnext
    set nx := schedNextGo s1.tasks prev 1 MAX_TASKS with hnxdef
    set T2 := wrT s1.tasks nx.toNat { s1.tasks nx.toNat with state := .running } with hT2def
    set s2 : K := { s1 with current_task := nx, tasks := T2 } with hs2def
    have h2t : (debug_hud_draw s2).tasks = T2 := debug_hud_draw_tasks s2
    have h2c : (debug_hud_draw s2).current_task = nx := debug_hud_draw_current s2
    have hT2k1 : ∀ i, i < MAX_TASKS → (T2 i).state = .running → (i : Int) = nx := by
      intro i hi hr
      rw [hT2def, wrT_eq] at hr
      by_cases him : i = nx.toNat
      · subst him; omega
      · rw [if_neg him] at hr
        exact absurd hr (hnorun i hi)
    have hT2cur : (T2 nx.toNat).state ≠ .dead := by
      rw [hT2def, wrT_eq, if_pos rfl]
      intro hh; exact nomatch hh
    have hT2dz : ∀ i, i < MAX_TASKS → (T2 i).state = .dead → T2 i = deadTask := by
      intro i hi hd
      rw [hT2def, wrT_eq] at hd ⊢
      by_cases him : i = nx.toNat
      · rw [if_pos him] at hd
        exact nomatch hd
      · rw [if_neg him] at hd ⊢
        exact hdz i hi hd
    have hKs2 : KInv (debug_hud_draw s2) := by
      apply KInv_debug_hud_draw
      exact KInv_mk s2 T2 nx rfl rfl hT2k1 (Or.inr ⟨hn0, hn8, hT2cur⟩) hT2dz
    by_cases hpm : prev = -1
    · rw [if_pos hpm]
      exact hKs2
    · rw [if_neg hpm]
      rcases hprev with hh | ⟨hp0, hp8, hpnd⟩
      · exact absurd hh hpm
      by_cases hpn : prev ≠ nx
      · rw [if_pos hpn]
        have hne : prev.toNat ≠ nx.toNat := by omega
        have hp8n : prev.toNat < MAX_TASKS := by omega
        refine KInv_mk _
          (wrT T2 prev.toNat { (debug_hud_draw s2).tasks prev.toNat with esp := sp }) nx
          ?_ ?_ ?_ ?_ ?_
        · show wrT (debug_hud_draw s2).tasks prev.toNat
            { (debug_hud_draw s2).tasks prev.toNat with esp := sp } =
            wrT T2 prev.toNat { (debug_hud_draw s2).tasks prev.toNat with esp := sp }
          rw [h2t]
        · exact h2c
        · intro i hi hr
          rw [wrT_eq] at hr
          by_cases him : i = prev.toNat
          · rw [if_pos him] at hr
            have e1 : ({ (debug_hud_draw s2).tasks prev.toNat with esp := sp }).state =
                ((debug_hud_draw s2).tasks prev.toNat).state := rfl
            rw [e1, h2t, hT2def, wrT_eq, if_neg hne] at hr
            exact absurd hr (hnorun prev.toNat hp8n)
          · rw [if_neg him] at hr
            exact hT2k1 i hi hr
        · refine Or.inr ⟨hn0, hn8, ?_⟩
          rw [wrT_eq, if_neg (by omega)]
          exact hT2cur
        · intro i hi hd
          rw [wrT_eq] at hd ⊢
          by_cases him : i = prev.toNat
          · rw [if_pos him] at hd
            have e1 : ({ (debug_hud_draw s2).tasks prev.toNat with esp := sp }).state =
                ((debug_hud_draw s2).tasks prev.toNat).state := rfl
            rw [e1, h2t, hT2def, wrT_eq, if_neg hne] at hd
            exact absurd hd hpnd
          · rw [if_neg him] at hd ⊢
            exact hT2dz i hi hd
      · rw [if_neg hpn]
        exact hKs2

theorem KInv_schedule (sp : Nat) (s : K) (h : KInv s) : KInv (schedule sp s) := by
  obtain ⟨h1, h2, h3⟩ := h
  unfold schedule
  show KInv (schedule_pick sp s.current_task (if 0 ≤ s.current_task ∧ (s.tasks s.current_task.toNat).state = .running then { s with tasks := wrT s.tasks s.current_task.toNat { s.tasks s.current_task.toNat with state := .ready } } else s))
  by_cases hA : 0 ≤ s.current_task ∧ (s.tasks s.current_task.toNat).state = .running
  · rw [if_pos hA]
    obtain ⟨hA0, hArun⟩ := hA
    have hcur8 : s.current_task < (MAX_TASKS : Int) := by
      rcases h2 with hh | ⟨-, h8, -⟩
      · omega
      · exact h8
    apply schedule_pick_inv
    · intro i hi hr
      replace hr : ((wrT s.tasks s.current_task.toNat
          { s.tasks s.current_task.toNat with state := .ready }) i).state = .running := hr
      rw [wrT_eq] at hr
      by_cases him : i = s.current_task.toNat
      · rw [if_pos him] at hr
        exact nomatch hr
      · rw [if_neg him] at hr
        have := h1 i hi hr
        omega
    · intro i hi hd
      replace hd : ((wrT s.tasks s.current_task.toNat
          { s.tasks s.current_task.toNat with state := .ready }) i).state = .dead := hd
      show (wrT s.tasks s.current_task.toNat
          { s.tasks s.current_task.toNat with state := .ready }) i = deadTask
      rw [wrT_eq] at hd ⊢
      by_cases him : i = s.current_task.toNat
      · rw [if_pos him] at hd
        exact nomatch hd
      · rw [if_neg him] at hd ⊢
        exact h3 i hi hd
    · rfl
    · refine Or.inr ⟨hA0, hcur8, ?_⟩
      show ((wrT s.tasks s.current_task.toNat
          { s.tasks s.current_task.toNat with state := .ready })
        s.current_task.toNat).state ≠ .dead
      rw [wrT_eq, if_pos rfl]
      intro hh; exact nomatch hh
  · rw [if_neg hA]
    apply schedule_pick_inv
    · intro i hi hr
      have hic := h1 i hi hr
      exact absurd ⟨by omega, by rw [show s.current_task.toNat = i from by omega]; exact hr⟩ hA
    · exact h3
    · rfl
    · exact h2

theorem KInv_reach {s : K} (h : Reach s) : KInv s := by
  induction h with
  | boot => exact KInv_kinit
  | create e nm hs ih => exact KInv_create _ e nm ih
  | kill id hs ih => exact KInv_kill _ id ih
  | sched sp hs ih => exact KInv_schedule sp _ ih

/-- C3: in every state reachable from boot by any sequence of
`task_create`, `task_kill` and `schedule` calls, a RUNNING slot is the
current slot, and hence at most one slot is RUNNING at any instant. -/
theorem running_is_current (s : K) (h : Reach s) :
    (∀ i, i < MAX_TASKS → (s.tasks i).state = .running → (i : Int) = s.current_task) ∧
    (∀ i j, i < MAX_TASKS → j < MAX_TASKS → (s.tasks i).state = .running →
      (s.tasks j).state = .running → i = j) := by
  have hk := KInv_reach h
  refine ⟨hk.1, fun i j hi hj hri hrj => ?_⟩
  have e1 := hk.1 i hi hri
  have e2 := hk.1 j hj hrj
  omega

/-- Witness for C3 at the fully booted state: the shell slot 0 is RUNNING
there and is indeed the current task. -/
theorem running_is_current_witness : (0 : Int) = bootState.current_task :=
  (running_is_current bootState
    (Reach.sched 0 (Reach.create .hb1 "heartbeat1"
      (Reach.create .hb0 "heartbeat0" (Reach.create .shell "shell" Reach.boot))))).1
    0 (by norm_num [MAX_TASKS]) (by rfl)

/-- C6: in any reachable state, a successful `task_create` (landing in some
slot) followed by `task_kill` of that slot, issued while it is not the
current task, leaves every field of every task-table slot exactly as
before the create.  (The slot stack region is not part of the observable
table; the saved `esp` field itself is restored to 0.) -/
theorem create_kill_frame (s : K) (h : Reach s) (e : entry_t) (nm : String)
    (hid : 0 ≤ (task_create e nm s).1)
    (hcur : (task_create e nm s).1 ≠ s.current_task) :
    ∀ j, ((task_kill (task_create e nm s).1 (task_create e nm s).2).2).tasks j = s.tasks j := by
  have hk := KInv_reach h
  rcases task_alloc_slot_cases s with halloc | ⟨m, hm8, heq, hdead⟩
  · rw [task_create_fail s e nm halloc] at hid
    exact absurd hid (by norm_num)
  · obtain ⟨h1, ht, hc⟩ := task_create_succ s e nm m heq
    intro j
    rw [h1] at hcur ⊢
    unfold task_kill
    rw [if_neg (by omega)]
    have htoNat : ((m : Int)).toNat = m := by omega
    have hslot : ((task_create e nm s).2.tasks ((m : Int)).toNat).state = .ready := by
      rw [htoNat, ht, wrT_eq, if_pos rfl]
    rw [if_neg (by rw [hslot]; intro hh; exact nomatch hh)]
    rw [if_neg (by rw [hc]; exact hcur)]
    show (wrT (task_create e nm s).2.tasks ((m : Int)).toNat deadTask) j = s.tasks j
    rw [htoNat, ht, wrT_eq, wrT_eq]
    by_cases him : j = m
    · rw [if_pos him, him]
      exact (hk.2.2 m hm8 hdead).symm
    · rw [if_neg him, if_neg him]

/-- Witness for C6: creating into slot 0 of the boot-init state (current
task -1) and immediately killing it restores slot 0. -/
theorem create_kill_frame_witness :
    ((task_kill (task_create .shell "shell" kinit).1
        (task_create .shell "shell" kinit).2).2).tasks 0 = kinit.tasks 0 :=
  create_kill_frame kinit Reach.boot .shell "shell" (by decide) (by decide) 0

/-! ## Display loop characterizations and the newline/scroll claim (C7) -/

theorem wr_eq (m : Nat → Nat) (i v j : Nat) : wr m i v j = if j = i then v else m j := rfl

theorem fillColsMem_eq (k : Nat) :
    ∀ (m : Nat → Nat) (color row col : Nat) (i : Nat),
      fillColsMem m color row col k i =
        if row * VGA_WIDTH + col ≤ i ∧ i < row * VGA_WIDTH + col + k
        then vga_entry 32 color else m i := by
  induction k with
  | zero =>
    intro m color row col i
    simp only [fillColsMem]
    rw [if_neg (by omega)]
  | succ k ih =>
    intro m color row col i
    simp only [fillColsMem]
    rw [ih]
    simp only [wr_eq]
    split_ifs <;> first | rfl | (exfalso; omega)

theorem copyColsMem_eq (k : Nat) :
    ∀ (m : Nat → Nat) (y x : Nat), 1 ≤ y → x + k ≤ VGA_WIDTH →
      ∀ i, copyColsMem m y x k i =
        if (y - 1) * VGA_WIDTH + x ≤ i ∧ i < (y - 1) * VGA_WIDTH + x + k
        then m (i + VGA_WIDTH) else m i := by
  induction k with
  | zero =>
    intro m y x hy hxk i
    simp only [copyColsMem]
    rw [if_neg (by omega)]
  | succ k ih =>
    intro m y x hy hxk i
    simp only [copyColsMem]
    rw [ih _ _ _ hy (by omega)]
    simp only [wr_eq]
    have hyw : y * VGA_WIDTH + x = (y - 1) * VGA_WIDTH + x + VGA_WIDTH := by
      simp only [VGA_WIDTH] at *
      omega
    split_ifs <;> first | rfl | (congr 1; simp only [VGA_WIDTH] at *; omega)

theorem scrollRowsMem_eq (k : Nat) :
    ∀ (m : Nat → Nat) (y : Nat), 1 ≤ y →
      ∀ i, scrollRowsMem m y k i =
        if (y - 1) * VGA_WIDTH ≤ i ∧ i < (y - 1 + k) * VGA_WIDTH
        then m (i + VGA_WIDTH) else m i := by
  induction k with
  | zero =>
    intro m y hy i
    simp only [scrollRowsMem]
    rw [if_neg (by simp only [VGA_WIDTH]; omega)]
  | succ k ih =>
    intro m y hy i
    simp only [scrollRowsMem]
    rw [ih _ _ (by omega)]
    rw [copyColsMem_eq VGA_WIDTH m y 0 hy (by omega)]
    rw [copyColsMem_eq VGA_WIDTH m y 0 hy (by omega)]
    split_ifs <;> first | rfl | (congr 1; simp only [VGA_WIDTH] at *; omega)

/-- C7: processing a newline from any in-text-area cursor position first
fills the rest of the current line with spaces; the column becomes 0; when
the next row stays inside the text area the row just advances, and when it
would leave it (row = 23) the rows 1..23 are copied up by one, the last
text-area row is cleared, and the cursor stays on row 23. -/
theorem terminal_newline_spec (d : Disp) (hrow : d.term_row < TERM_HEIGHT)
    (hcol : d.term_col < VGA_WIDTH) :
    (terminal_newline d).term_col = 0 ∧
    (terminal_newline d).term_color = d.term_color ∧
    (d.term_row + 1 < TERM_HEIGHT →
      (terminal_newline d).term_row = d.term_row + 1 ∧
      ∀ i, (terminal_newline d).mem i =
        if d.term_row * VGA_WIDTH + d.term_col ≤ i ∧ i < d.term_row * VGA_WIDTH + VGA_WIDTH
        then vga_entry 32 d.term_color else d.mem i) ∧
    (d.term_row + 1 ≥ TERM_HEIGHT →
      (terminal_newline d).term_row = TERM_HEIGHT - 1 ∧
      ∀ i, (terminal_newline d).mem i =
        if (TERM_HEIGHT - 1) * VGA_WIDTH ≤ i ∧ i < TERM_HEIGHT * VGA_WIDTH
        then vga_entry 32 d.term_color
        else if i < (TERM_HEIGHT - 1) * VGA_WIDTH then
          (if d.term_row * VGA_WIDTH + d.term_col ≤ i + VGA_WIDTH ∧
              i + VGA_WIDTH < d.term_row * VGA_WIDTH + VGA_WIDTH
           then vga_entry 32 d.term_color else d.mem (i + VGA_WIDTH))
        else d.mem i) := by
  unfold terminal_newline
  by_cases hb : d.term_row + 1 ≥ TERM_HEIGHT
  · rw [if_pos hb]
    have hr23 : d.term_row = TERM_HEIGHT - 1 := by
      simp only [TERM_HEIGHT, VGA_HEIGHT] at *
      omega
    refine ⟨rfl, rfl, fun hlt => absurd hlt (by omega), fun _ => ⟨rfl, fun i => ?_⟩⟩
    show fillColsMem
      (scrollRowsMem
        (fillColsMem d.mem d.term_color d.term_row d.term_col (VGA_WIDTH - d.term_col))
        1 (TERM_HEIGHT - 1))
      d.term_color (TERM_HEIGHT - 1) 0 VGA_WIDTH i = _
    rw [fillColsMem_eq]
    rw [scrollRowsMem_eq (TERM_HEIGHT - 1)
      (fillColsMem d.mem d.term_color d.term_row d.term_col (VGA_WIDTH - d.term_col))
      1 (by omega)]
    rw [fillColsMem_eq]
    rw [fillColsMem_eq]
    simp only [TERM_HEIGHT, VGA_HEIGHT, VGA_WIDTH] at *
    split_ifs <;> first | rfl | (congr 1; omega)
  · rw [if_neg hb]
    refine ⟨rfl, rfl, fun _ => ⟨rfl, fun i => ?_⟩, fun hge => absurd hge hb⟩
    show fillColsMem d.mem d.term_color d.term_row d.term_col (VGA_WIDTH - d.term_col) i = _
    rw [fillColsMem_eq]
    simp only [VGA_WIDTH] at *
    split_ifs <;> first | rfl | (exfalso; omega)

/-- Witness for C7 at the bottom text-area row (23, 5): the newline
scrolls and leaves the cursor at (23, 0), and the first cell of the last
text-area row is a space. -/
theorem terminal_newline_spec_witness :
    (terminal_newline { mem := fun _ => 0, term_row := 23, term_col := 5, term_color := 15 }).term_row
      = TERM_HEIGHT - 1 ∧
    (terminal_newline { mem := fun _ => 0, term_row := 23, term_col := 5, term_color := 15 }).term_col
      = 0 ∧
    (terminal_newline { mem := fun _ => 0, term_row := 23, term_col := 5, term_color := 15 }).mem 1840
      = vga_entry 32 15 :=
  have h := terminal_newline_spec { mem := fun _ => 0, term_row := 23, term_col := 5, term_color := 15 }
    (by norm_num [TERM_HEIGHT, VGA_HEIGHT]) (by norm_num [VGA_WIDTH])
  have h4 := h.2.2.2 (by norm_num [TERM_HEIGHT, VGA_HEIGHT])
  ⟨h4.1, h.1, by rw [h4.2 1840]; norm_num [TERM_HEIGHT, VGA_HEIGHT, VGA_WIDTH]⟩

/-! ## Display-effect lemmas for the end-to-end scenarios (C1, C2) -/

theorem terminal_putc_at_color (d : Disp) (row col c : Nat) :
    (terminal_putc_at d row col c).term_color = d.term_color := by
  unfold terminal_putc_at; split <;> rfl

theorem terminal_putc_at_mem_hit (d : Disp) (row col c : Nat)
    (hr : row < VGA_HEIGHT) (hc : col < VGA_WIDTH) :
    (terminal_putc_at d row col c).mem (row * VGA_WIDTH + col) = vga_entry c d.term_color := by
  unfold terminal_putc_at
  rw [if_neg (by omega)]
  show wr d.mem (row * VGA_WIDTH + col) (vga_entry c d.term_color) (row * VGA_WIDTH + col) = _
  rw [wr_eq, if_pos rfl]

theorem terminal_putc_at_mem_ne (d : Disp) (row col c j : Nat)
    (h : j ≠ row * VGA_WIDTH + col) :
    (terminal_putc_at d row col c).mem j = d.mem j := by
  unfold terminal_putc_at
  split
  · rfl
  · show wr d.mem (row * VGA_WIDTH + col) (vga_entry c d.term_color) j = d.mem j
    rw [wr_eq, if_neg h]

theorem put_spaces_color (k : Nat) :
    ∀ (d : Disp) (row col : Nat), (put_spaces d row col k).term_color = d.term_color := by
  induction k with
  | zero => intro d row col; rfl
  | succ k ih =>
    intro d row col
    simp only [put_spaces]
    rw [ih, terminal_putc_at_color]

theorem put_spaces_mem (k : Nat) :
    ∀ (d : Disp) (row col : Nat), row < VGA_HEIGHT → col + k ≤ VGA_WIDTH → ∀ j,
      (put_spaces d row col k).mem j =
        if row * VGA_WIDTH + col ≤ j ∧ j < row * VGA_WIDTH + col + k
        then vga_entry 32 d.term_color else d.mem j := by
  induction k with
  | zero =>
    intro d row col hr hk j
    simp only [put_spaces]
    rw [if_neg (by omega)]
  | succ k ih =>
    intro d row col hr hk j
    simp only [put_spaces]
    rw [ih (terminal_putc_at d row col 32) row (col + 1) hr (by omega) j,
      terminal_putc_at_color]
    by_cases hj : j = row * VGA_WIDTH + col
    · subst hj
      rw [if_neg (by omega), if_pos (by omega),
        terminal_putc_at_mem_hit d row col 32 hr (by simp only [VGA_WIDTH] at *; omega)]
    · rw [terminal_putc_at_mem_ne d row col 32 j hj]
      split_ifs <;> first | rfl | (exfalso; omega)

theorem overlay_clear_line_color (d : Disp) (row : Nat) :
    (overlay_clear_line d row).term_color = d.term_color := by
  unfold overlay_clear_line
  rw [put_spaces_color]

theorem overlay_clear_line_mem (d : Disp) (row : Nat) (hr : row < VGA_HEIGHT) :
    ∀ j, (overlay_clear_line d row).mem j =
      if row * VGA_WIDTH + HB_COL ≤ j ∧ j < row * VGA_WIDTH + VGA_WIDTH
      then vga_entry 32 d.term_color else d.mem j := by
  intro j
  unfold overlay_clear_line
  rw [put_spaces_mem (VGA_WIDTH - HB_COL) d row HB_COL hr (by simp only [VGA_WIDTH, HB_COL]; omega) j]
  split_ifs <;> first | rfl | (exfalso; simp only [VGA_WIDTH, HB_COL] at *; omega)

theorem terminal_write_at_list_color (cs : List Char) :
    ∀ (d : Disp) (row col : Nat), (terminal_write_at_list d row col cs).term_color = d.term_color := by
  induction cs with
  | nil => intro d row col; rfl
  | cons c rest ih =>
    intro d row col
    simp only [terminal_write_at_list]
    split
    · rw [ih, terminal_putc_at_color]
    · rfl

theorem terminal_putc_at_mem_lo (d : Disp) (row col c j : Nat) (h : j < row * VGA_WIDTH) :
    (terminal_putc_at d row col c).mem j = d.mem j :=
  terminal_putc_at_mem_ne d row col c j (by omega)

theorem put_spaces_mem_lo (k : Nat) :
    ∀ (d : Disp) (row col j : Nat), j < row * VGA_WIDTH →
      (put_spaces d row col k).mem j = d.mem j := by
  induction k with
  | zero => intro d row col j h; rfl
  | succ k ih =>
    intro d row col j h
    simp only [put_spaces]
    rw [ih _ row (col + 1) j h, terminal_putc_at_mem_lo d row col 32 j h]

theorem terminal_write_at_list_mem_lo (cs : List Char) :
    ∀ (d : Disp) (row col j : Nat), j < row * VGA_WIDTH →
      (terminal_write_at_list d row col cs).mem j = d.mem j := by
  induction cs with
  | nil => intro d row col j h; rfl
  | cons c rest ih =>
    intro d row col j h
    simp only [terminal_write_at_list]
    split
    · rw [ih _ row (col + 1) j h, terminal_putc_at_mem_lo d row col c.toNat j h]
    · rfl

theorem hud_clear_mem_lo (k : Nat) :
    ∀ (d : Disp) (row col j : Nat), j < row * VGA_WIDTH →
      (hud_clear d row col k).mem j = d.mem j := by
  induction k with
  | zero => intro d row col j h; rfl
  | succ k ih =>
    intro d row col j h
    simp only [hud_clear]
    rw [ih _ (row + 1) col j (by simp only [VGA_WIDTH] at *; omega),
      put_spaces_mem_lo 26 d row col j h]

theorem hud_line_mem_lo (d : Disp) (row col i : Nat) (t : task_t) (j : Nat)
    (h : j < row * VGA_WIDTH) :
    (hud_line d row col i t).mem j = d.mem j := by
  unfold hud_line
  rw [terminal_write_at_list_mem_lo _ _ row _ j h]
  rw [terminal_putc_at_mem_lo _ row _ _ j h]
  rw [terminal_putc_at_mem_lo _ row _ _ j h]
  rw [terminal_putc_at_mem_lo _ row _ _ j h]
  rw [terminal_putc_at_mem_lo _ row _ _ j h]
  rw [terminal_putc_at_mem_lo _ row _ _ j h]

theorem hud_lines_mem_lo (k : Nat) :
    ∀ (tasks : Nat → task_t) (srow scol : Nat) (d : Disp) (i line j : Nat),
      j < srow * VGA_WIDTH →
      (hud_lines tasks srow scol d i line k).mem j = d.mem j := by
  induction k with
  | zero => intro tasks srow scol d i line j h; rfl
  | succ k ih =>
    intro tasks srow scol d i line j h
    simp only [hud_lines]
    split
    · split
      · rw [ih tasks srow scol d (i + 1) line j h]
      · rw [ih tasks srow scol _ (i + 1) (line + 1) j h]
        rw [hud_line_mem_lo d (srow + line) scol i (tasks i) j
          (by simp only [VGA_WIDTH] at *; omega)]
    · rfl

theorem hud_clear_color (k : Nat) :
    ∀ (d : Disp) (row col : Nat), (hud_clear d row col k).term_color = d.term_color := by
  induction k with
  | zero => intro d row col; rfl
  | succ k ih =>
    intro d row col
    simp only [hud_clear]
    rw [ih, put_spaces_color]

theorem hud_line_color (d : Disp) (row col i : Nat) (t : task_t) :
    (hud_line d row col i t).term_color = d.term_color := by
  unfold hud_line
  rw [terminal_write_at_list_color, terminal_putc_at_color, terminal_putc_at_color,
    terminal_putc_at_color, terminal_putc_at_color, terminal_putc_at_color]

theorem hud_lines_color (k : Nat) :
    ∀ (tasks : Nat → task_t) (srow scol : Nat) (d : Disp) (i line : Nat),
      (hud_lines tasks srow scol d i line k).term_color = d.term_color := by
  induction k with
  | zero => intro tasks srow scol d i line; rfl
  | succ k ih =>
    intro tasks srow scol d i line
    simp only [hud_lines]
    split
    · split
      · rw [ih]
      · rw [ih, hud_line_color]
    · rfl

theorem debug_hud_draw_mem_lo (s : K) (j : Nat) (h : j < (VGA_HEIGHT - 6) * VGA_WIDTH) :
    (debug_hud_draw s).disp.mem j = s.disp.mem j := by
  unfold debug_hud_draw
  split
  · show (hud_lines s.tasks (VGA_HEIGHT - 6) (VGA_WIDTH - 26)
      (terminal_write_at (hud_clear s.disp (VGA_HEIGHT - 6) (VGA_WIDTH - 26) 6)
        (VGA_HEIGHT - 6) (VGA_WIDTH - 26) "Tasks") 0 1 MAX_TASKS).mem j = s.disp.mem j
    rw [hud_lines_mem_lo MAX_TASKS _ _ _ _ 0 1 j h]
    unfold terminal_write_at
    rw [terminal_write_at_list_mem_lo _ _ _ _ j h]
    rw [hud_clear_mem_lo 6 _ _ _ j h]
  · rfl

theorem debug_hud_draw_color (s : K) :
    (debug_hud_draw s).disp.term_color = s.disp.term_color := by
  unfold debug_hud_draw
  split
  · show (hud_lines s.tasks (VGA_HEIGHT - 6) (VGA_WIDTH - 26)
      (terminal_write_at (hud_clear s.disp (VGA_HEIGHT - 6) (VGA_WIDTH - 26) 6)
        (VGA_HEIGHT - 6) (VGA_WIDTH - 26) "Tasks") 0 1 MAX_TASKS).term_color = _
    rw [hud_lines_color]
    unfold terminal_write_at
    rw [terminal_write_at_list_color, hud_clear_color]
  · rfl

theorem schedule_pick_disp_mem_lo (sp : Nat) (prev : Int) (s1 : K) (j : Nat)
    (h : j < (VGA_HEIGHT - 6) * VGA_WIDTH) :
    (schedule_pick sp prev s1).disp.mem j = s1.disp.mem j := by
  unfold schedule_pick
  by_cases hnext : schedNextGo s1.tasks prev 1 MAX_TASKS = -1
  · rw [if_pos hnext]
    split_ifs with hkeep
    · rw [debug_hud_draw_mem_lo _ j h]
    · rw [debug_hud_draw_mem_lo _ j h]
  · rw [if_neg hnext]
    by_cases hpm : prev = -1
    · rw [if_pos hpm]
      rw [debug_hud_draw_mem_lo _ j h]
    · rw [if_neg hpm]
      split_ifs with hpn
      · show (debug_hud_draw _).disp.mem j = s1.disp.mem j
        rw [debug_hud_draw_mem_lo _ j h]
      · rw [debug_hud_draw_mem_lo _ j h]

theorem schedule_pick_disp_color (sp : Nat) (prev : Int) (s1 : K) :
    (schedule_pick sp prev s1).disp.term_color = s1.disp.term_color := by
  unfold schedule_pick
  by_cases hnext : schedNextGo s1.tasks prev 1 MAX_TASKS = -1
  · rw [if_pos hnext]
    split_ifs with hkeep
    · rw [debug_hud_draw_color]
    · rw [debug_hud_draw_color]
  · rw [if_neg hnext]
    by_cases hpm : prev = -1
    · rw [if_pos hpm]
      rw [debug_hud_draw_color]
    · rw [if_neg hpm]
      split_ifs with hpn
      · show (debug_hud_draw _).disp.term_color = s1.disp.term_color
        rw [debug_hud_draw_color]
      · rw [debug_hud_draw_color]

theorem schedule_disp_mem_lo (sp : Nat) (s : K) (j : Nat)
    (h : j < (VGA_HEIGHT - 6) * VGA_WIDTH) :
    (schedule sp s).disp.mem j = s.disp.mem j := by
  unfold schedule
  show (schedule_pick sp s.current_task
    (if 0 ≤ s.current_task ∧ (s.tasks s.current_task.toNat).state = .running then { s with tasks := wrT s.tasks s.current_task.toNat { s.tasks s.current_task.toNat with state := .ready } } else s)).disp.mem j = s.disp.mem j
  rw [schedule_pick_disp_mem_lo sp s.current_task _ j h]
  split_ifs with hA
  · rfl
  · rfl

theorem schedule_disp_color (sp : Nat) (s : K) :
    (schedule sp s).disp.term_color = s.disp.term_color := by
  unfold schedule
  show (schedule_pick sp s.current_task
    (if 0 ≤ s.current_task ∧ (s.tasks s.current_task.toNat).state = .running then { s with tasks := wrT s.tasks s.current_task.toNat { s.tasks s.current_task.toNat with state := .ready } } else s)).disp.term_color = s.disp.term_color
  rw [schedule_pick_disp_color sp s.current_task _]
  split_ifs with hA
  · rfl
  · rfl

theorem hb0_tick_tasks (n : Nat) (s : K) : (hb0_tick n s).tasks = s.tasks := by
  simp only [hb0_tick]; split <;> rfl

theorem hb0_tick_current (n : Nat) (s : K) : (hb0_tick n s).current_task = s.current_task := by
  simp only [hb0_tick]; split <;> rfl

theorem hb1_tick_tasks (n : Nat) (s : K) : (hb1_tick n s).tasks = s.tasks := by
  simp only [hb1_tick]; split <;> rfl

theorem hb1_tick_current (n : Nat) (s : K) : (hb1_tick n s).current_task = s.current_task := by
  simp only [hb1_tick]; split <;> rfl

/-- The display effect of one heartbeat0 iteration whose instance index
evaluates to `i < 4`: clear overlay line `i`, then render the five header
characters, the id digit, the separator and the counter digit. -/
theorem hb0_tick_disp (n : Nat) (s : K) (i : Nat)
    (hidx : hb_instance_index "heartbeat0" s.current_task s = (i : Int))
    (hi : i < HB_MAX_LINES) :
    (hb0_tick n s).disp =
      terminal_putc_at
        (terminal_write_at
          (terminal_putc_at
            (terminal_write_at (overlay_clear_line s.disp (HB0_ROW_BASE + i))
              (HB0_ROW_BASE + i) HB_COL "HB0 #")
            (HB0_ROW_BASE + i) (HB_COL + 5) (48 + (s.current_task % 10).toNat))
          (HB0_ROW_BASE + i) (HB_COL + 6) " : ")
        (HB0_ROW_BASE + i) (HB_COL + 9) (48 + n % 10) := by
  simp only [hb0_tick]
  rw [hidx]
  rw [if_pos ⟨by omega, by simp only [HB_MAX_LINES] at *; omega⟩]
  rw [show ((i : Int)).toNat = i from by omega]

theorem hb1_tick_disp (n : Nat) (s : K) (i : Nat)
    (hidx : hb_instance_index "heartbeat1" s.current_task s = (i : Int))
    (hi : i < HB_MAX_LINES) :
    (hb1_tick n s).disp =
      terminal_putc_at
        (terminal_write_at
          (terminal_putc_at
            (terminal_write_at (overlay_clear_line s.disp (HB1_ROW_BASE + i))
              (HB1_ROW_BASE + i) HB_COL "HB1 #")
            (HB1_ROW_BASE + i) (HB_COL + 5) (48 + (s.current_task % 10).toNat))
          (HB1_ROW_BASE + i) (HB_COL + 6) " : ")
        (HB1_ROW_BASE + i) (HB_COL + 9) (48 + n % 10) := by
  simp only [hb1_tick]
  rw [hidx]
  rw [if_pos ⟨by omega, by simp only [HB_MAX_LINES] at *; omega⟩]
  rw [show ((i : Int)).toNat = i from by omega]

theorem hb0_tick_color (n : Nat) (s : K) :
    (hb0_tick n s).disp.term_color = s.disp.term_color := by
  simp only [hb0_tick]
  split
  · show (terminal_putc_at (terminal_write_at (terminal_putc_at (terminal_write_at
      (overlay_clear_line s.disp _) _ HB_COL "HB0 #") _ (HB_COL + 5) _) _ (HB_COL + 6) " : ")
        _ (HB_COL + 9) _).term_color = s.disp.term_color
    unfold terminal_write_at
    rw [terminal_putc_at_color, terminal_write_at_list_color, terminal_putc_at_color,
      terminal_write_at_list_color, overlay_clear_line_color]
  · rfl

theorem hb1_tick_color (n : Nat) (s : K) :
    (hb1_tick n s).disp.term_color = s.disp.term_color := by
  simp only [hb1_tick]
  split
  · show (terminal_putc_at (terminal_write_at (terminal_putc_at (terminal_write_at
      (overlay_clear_line s.disp _) _ HB_COL "HB1 #") _ (HB_COL + 5) _) _ (HB_COL + 6) " : ")
        _ (HB_COL + 9) _).term_color = s.disp.term_color
    unfold terminal_write_at
    rw [terminal_putc_at_color, terminal_write_at_list_color, terminal_putc_at_color,
      terminal_write_at_list_color, overlay_clear_line_color]
  · rfl

/-! ## Congruence lemmas: the task-table/current-task evolution depends only
on the table and the current task, never on the display -/

theorem schedNextGo_congr (f g : Nat → task_t) (prev : Int)
    (h : ∀ j, j < MAX_TASKS → f j = g j) :
    ∀ (k step : Nat), schedNextGo f prev step k = schedNextGo g prev step k := by
  intro k
  induction k with
  | zero => intro step; rfl
  | succ k ih =>
    intro step
    simp only [schedNextGo]
    rw [h ((prev + (step : Int)) % ((MAX_TASKS : Nat) : Int)).toNat
      (by simp only [MAX_TASKS]; omega), ih (step + 1)]

theorem hb_instance_go_congr (f g : Nat → task_t) (nm : String) (my_id : Int) :
    ∀ (l : List Nat), (∀ x ∈ l, f x = g x) →
      ∀ acc, hb_instance_go f nm my_id l acc = hb_instance_go g nm my_id l acc := by
  intro l
  induction l with
  | nil => intro h acc; rfl
  | cons i rest ih =>
    intro h acc
    simp only [hb_instance_go]
    rw [h i (List.mem_cons_self i rest)]
    simp only [ih (fun x hx => h x (List.mem_cons_of_mem i hx))]

theorem hb_instance_index_congr (nm : String) (my_id : Int) (s : K) (T : Nat → task_t)
    (hT : ∀ j, j < MAX_TASKS → s.tasks j = T j) :
    hb_instance_index nm my_id s = hb_instance_go T nm my_id (List.range MAX_TASKS) 0 := by
  unfold hb_instance_index
  exact hb_instance_go_congr s.tasks T nm my_id (List.range MAX_TASKS)
    (fun x hx => hT x (List.mem_range.mp hx)) 0

theorem schedule_pick_tc_congr (sp : Nat) (prev : Int) (s1 s2 : K)
    (hp8 : prev < (MAX_TASKS : Int))
    (hT : ∀ j, j < MAX_TASKS → s1.tasks j = s2.tasks j)
    (hc : s1.current_task = s2.current_task) :
    (∀ j, j < MAX_TASKS →
      (schedule_pick sp prev s1).tasks j = (schedule_pick sp prev s2).tasks j) ∧
    (schedule_pick sp prev s1).current_task = (schedule_pick sp prev s2).current_task := by
  have hpN : prev.toNat < MAX_TASKS := by simp only [MAX_TASKS] at *; omega
  have hnx : schedNextGo s1.tasks prev 1 MAX_TASKS = schedNextGo s2.tasks prev 1 MAX_TASKS :=
    schedNextGo_congr s1.tasks s2.tasks prev hT MAX_TASKS 1
  unfold schedule_pick
  rw [hnx]
  by_cases hm : schedNextGo s2.tasks prev 1 MAX_TASKS = -1
  · rw [if_pos hm, if_pos hm]
    have hcond : (0 ≤ prev ∧ (s1.tasks prev.toNat).state ≠ .dead) ↔
        (0 ≤ prev ∧ (s2.tasks prev.toNat).state ≠ .dead) := by
      rw [hT prev.toNat hpN]
    by_cases hkeep : 0 ≤ prev ∧ (s1.tasks prev.toNat).state ≠ .dead
    · rw [if_pos hkeep, if_pos (hcond.mp hkeep)]
      constructor
      · intro j hj
        rw [debug_hud_draw_tasks, debug_hud_draw_tasks]
        show wrT s1.tasks prev.toNat { s1.tasks prev.toNat with state := .running } j =
          wrT s2.tasks prev.toNat { s2.tasks prev.toNat with state := .running } j
        rw [wrT_eq, wrT_eq, hT prev.toNat hpN]
        split_ifs with hje
        · rfl
        · exact hT j hj
      · rw [debug_hud_draw_current, debug_hud_draw_current]
        exact hc
    · rw [if_neg hkeep, if_neg (fun hh => hkeep (hcond.mpr hh))]
      refine ⟨fun j hj => ?_, ?_⟩
      · rw [debug_hud_draw_tasks, debug_hud_draw_tasks]
        exact hT j hj
      · rw [debug_hud_draw_current, debug_hud_draw_current]
        exact hc
  · rw [if_neg hm, if_neg hm]
    rcases schedNextGo_cases s2.tasks prev MAX_TASKS 1 with he | ⟨hn0, hn8, -⟩
    · exact absurd he hm
    set nx := schedNextGo s2.tasks prev 1 MAX_TASKS with hnxdef
    have hnN : nx.toNat < MAX_TASKS := by simp only [MAX_TASKS] at *; omega
    have htasks2 : ∀ j, j < MAX_TASKS →
        wrT s1.tasks nx.toNat { s1.tasks nx.toNat with state := .running } j =
        wrT s2.tasks nx.toNat { s2.tasks nx.toNat with state := .running } j := by
      intro j hj
      rw [wrT_eq, wrT_eq, hT nx.toNat hnN]
      split_ifs with hje
      · rfl
      · exact hT j hj
    by_cases hpm : prev = -1
    · rw [if_pos hpm, if_pos hpm]
      refine ⟨fun j hj => ?_, ?_⟩
      · rw [debug_hud_draw_tasks, debug_hud_draw_tasks]
        exact htasks2 j hj
      · rw [debug_hud_draw_current, debug_hud_draw_current]
    · rw [if_neg hpm, if_neg hpm]
      by_cases hpn : prev ≠ nx
      · rw [if_pos hpn, if_pos hpn]
        have key : ∀ (f g : Nat → task_t), (∀ j, j < MAX_TASKS → f j = g j) →
            ∀ j, j < MAX_TASKS →
              wrT f prev.toNat { f prev.toNat with esp := sp } j =
              wrT g prev.toNat { g prev.toNat with esp := sp } j := by
          intro f g hfg j hj
          rw [wrT_eq, wrT_eq]
          split_ifs with hje
          · rw [hfg prev.toNat hpN]
          · exact hfg j hj
        refine ⟨fun j hj => ?_, ?_⟩
        · show wrT (debug_hud_draw { s1 with current_task := nx, tasks := wrT s1.tasks nx.toNat { s1.tasks nx.toNat with state := .running } }).tasks prev.toNat { (debug_hud_draw { s1 with current_task := nx, tasks := wrT s1.tasks nx.toNat { s1.tasks nx.toNat with state := .running } }).tasks prev.toNat with esp := sp } j = wrT (debug_hud_draw { s2 with current_task := nx, tasks := wrT s2.tasks nx.toNat { s2.tasks nx.toNat with state := .running } }).tasks prev.toNat { (debug_hud_draw { s2 with current_task := nx, tasks := wrT s2.tasks nx.toNat { s2.tasks nx.toNat with state := .running } }).tasks prev.toNat with esp := sp } j
          rw [debug_hud_draw_tasks, debug_hud_draw_tasks]
          exact key _ _ htasks2 j hj
        · show (debug_hud_draw { s1 with current_task := nx, tasks := wrT s1.tasks nx.toNat { s1.tasks nx.toNat with state := .running } }).current_task = (debug_hud_draw { s2 with current_task := nx, tasks := wrT s2.tasks nx.toNat { s2.tasks nx.toNat with state := .running } }).current_task
          rw [debug_hud_draw_current, debug_hud_draw_current]
      · rw [if_neg hpn, if_neg hpn]
        refine ⟨fun j hj => ?_, ?_⟩
        · rw [debug_hud_draw_tasks, debug_hud_draw_tasks]
          exact htasks2 j hj
        · rw [debug_hud_draw_current, debug_hud_draw_current]

theorem schedule_tc_congr (sp : Nat) (s1 s2 : K)
    (hc8a : s1.current_task < (MAX_TASKS : Int))
    (hT : ∀ j, j < MAX_TASKS → s1.tasks j = s2.tasks j)
    (hc : s1.current_task = s2.current_task) :
    (∀ j, j < MAX_TASKS → (schedule sp s1).tasks j = (schedule sp s2).tasks j) ∧
    (schedule sp s1).current_task = (schedule sp s2).current_task := by
  have hpN : s1.current_task.toNat < MAX_TASKS := by simp only [MAX_TASKS] at *; omega
  simp only [schedule]
  rw [← hc]
  have hcond : (0 ≤ s1.current_task ∧ (s1.tasks s1.current_task.toNat).state = .running) ↔
      (0 ≤ s1.current_task ∧ (s2.tasks s1.current_task.toNat).state = .running) := by
    rw [hT s1.current_task.toNat hpN]
  by_cases hA : 0 ≤ s1.current_task ∧ (s1.tasks s1.current_task.toNat).state = .running
  · rw [if_pos hA, if_pos (hcond.mp hA)]
    apply schedule_pick_tc_congr sp s1.current_task _ _ hc8a
    · intro j hj
      show wrT s1.tasks s1.current_task.toNat
          { s1.tasks s1.current_task.toNat with state := .ready } j =
        wrT s2.tasks s1.current_task.toNat
          { s2.tasks s1.current_task.toNat with state := .ready } j
      rw [wrT_eq, wrT_eq, hT s1.current_task.toNat hpN]
      split_ifs with hje
      · rfl
      · exact hT j hj
    · rfl
  · rw [if_neg hA, if_neg (fun hh => hA (hcond.mpr hh))]
    exact schedule_pick_tc_congr sp s1.current_task s1 s2 hc8a hT hc

/-- The successful `task_kill` of a live non-current heartbeat0 task whose
instance index evaluates to `i < 4`: the overlay line `i` is cleared, the
slot is zeroed, and the HUD is marked dirty (kernel.c lines 355-379). -/
theorem task_kill_hb0 (s : K) (id : Int) (i : Nat)
    (h0 : 0 ≤ id) (h8 : id < (MAX_TASKS : Int))
    (hnd : ¬ (s.tasks id.toNat).state = .dead)
    (hnc : ¬ id = s.current_task)
    (hname : (s.tasks id.toNat).name = some "heartbeat0")
    (hidx : hb_instance_index "heartbeat0" id s = (i : Int)) (hi : i < HB_MAX_LINES) :
    task_kill id s = (1, { s with disp := overlay_clear_line s.disp (HB0_ROW_BASE + i), tasks := wrT s.tasks id.toNat deadTask, hud_dirty := true }) := by
  simp only [task_kill]
  rw [if_neg (by omega), if_neg hnd, if_neg hnc]
  rw [if_pos hname, hidx]
  rw [if_pos (⟨by omega, by simp only [HB_MAX_LINES] at *; omega⟩ :
    (0 : Int) ≤ (i : Int) ∧ (i : Int) < (HB_MAX_LINES : Int))]
  rw [if_neg (show ¬ (s.tasks id.toNat).name = some "heartbeat1" from by rw [hname]; simp)]
  rw [show ((i : Int)).toNat = i from by omega]

/-! ## Concrete task tables along the two end-to-end scenarios -/

/-- Shorthand for a live task record. -/
def mkTask (e : Nat) (st : task_state_t) (nm : String) (en : entry_t) : task_t :=
  { esp := e, state := st, name := some nm, entry := some en }

/-- A state carrying a given task table and current task; the display part
is irrelevant to the table evolution (see `schedule_tc_congr`). -/
def litK (T : Nat → task_t) (c : Int) : K :=
  { disp := { mem := fun _ => 0, term_row := 0, term_col := 0, term_color := 15 },
    tasks := T, task_count := 0, current_task := c, hud_dirty := false }

def tabBoot : Nat → task_t := fun j =>
  if j = 0 then mkTask (initEsp 0) .running "shell" .shell
  else if j = 1 then mkTask (initEsp 1) .ready "heartbeat0" .hb0
  else if j = 2 then mkTask (initEsp 2) .ready "heartbeat1" .hb1
  else if j = 3 then mkTask (initEsp 3) .ready "heartbeat0" .hb0
  else if j = 4 then mkTask (initEsp 4) .ready "heartbeat0" .hb0
  else deadTask

def tabA : Nat → task_t := fun j =>
  if j = 0 then mkTask 0 .ready "shell" .shell
  else if j = 1 then mkTask (initEsp 1) .running "heartbeat0" .hb0
  else if j = 2 then mkTask (initEsp 2) .ready "heartbeat1" .hb1
  else if j = 3 then mkTask (initEsp 3) .ready "heartbeat0" .hb0
  else if j = 4 then mkTask (initEsp 4) .ready "heartbeat0" .hb0
  else deadTask

def tabC : Nat → task_t := fun j =>
  if j = 0 then mkTask 0 .ready "shell" .shell
  else if j = 1 then mkTask 0 .ready "heartbeat0" .hb0
  else if j = 2 then mkTask (initEsp 2) .running "heartbeat1" .hb1
  else if j = 3 then mkTask (initEsp 3) .ready "heartbeat0" .hb0
  else if j = 4 then mkTask (initEsp 4) .ready "heartbeat0" .hb0
  else deadTask

def tabE : Nat → task_t := fun j =>
  if j = 0 then mkTask 0 .ready "shell" .shell
  else if j = 1 then mkTask 0 .ready "heartbeat0" .hb0
  else if j = 2 then mkTask 0 .ready "heartbeat1" .hb1
  else if j = 3 then mkTask (initEsp 3) .running "heartbeat0" .hb0
  else if j = 4 then mkTask (initEsp 4) .ready "heartbeat0" .hb0
  else deadTask

def tabG : Nat → task_t := fun j =>
  if j = 0 then mkTask 0 .ready "shell" .shell
  else if j = 1 then mkTask 0 .ready "heartbeat0" .hb0
  else if j = 2 then mkTask 0 .ready "heartbeat1" .hb1
  else if j = 3 then mkTask 0 .ready "heartbeat0" .hb0
  else if j = 4 then mkTask (initEsp 4) .running "heartbeat0" .hb0
  else deadTask

def tabPre : Nat → task_t := fun j =>
  if j = 0 then mkTask 0 .running "shell" .shell
  else if j = 1 then mkTask 0 .ready "heartbeat0" .hb0
  else if j = 2 then mkTask 0 .ready "heartbeat1" .hb1
  else if j = 3 then mkTask 0 .ready "heartbeat0" .hb0
  else if j = 4 then mkTask 0 .ready "heartbeat0" .hb0
  else deadTask

def tabKill : Nat → task_t := fun j =>
  if j = 0 then mkTask 0 .running "shell" .shell
  else if j = 1 then mkTask 0 .ready "heartbeat0" .hb0
  else if j = 2 then mkTask 0 .ready "heartbeat1" .hb1
  else if j = 4 then mkTask 0 .ready "heartbeat0" .hb0
  else deadTask

def tab2A : Nat → task_t := fun j =>
  if j = 0 then mkTask 0 .ready "shell" .shell
  else if j = 1 then mkTask 0 .running "heartbeat0" .hb0
  else if j = 2 then mkTask 0 .ready "heartbeat1" .hb1
  else if j = 4 then mkTask 0 .ready "heartbeat0" .hb0
  else deadTask

def tab2C : Nat → task_t := fun j =>
  if j = 0 then mkTask 0 .ready "shell" .shell
  else if j = 1 then mkTask 0 .ready "heartbeat0" .hb0
  else if j = 2 then mkTask 0 .running "heartbeat1" .hb1
  else if j = 4 then mkTask 0 .ready "heartbeat0" .hb0
  else deadTask

def tab2E : Nat → task_t := fun j =>
  if j = 0 then mkTask 0 .ready "shell" .shell
  else if j = 1 then mkTask 0 .ready "heartbeat0" .hb0
  else if j = 2 then mkTask 0 .ready "heartbeat1" .hb1
  else if j = 4 then mkTask 0 .running "heartbeat0" .hb0
  else deadTask

theorem spawn2_tab : ∀ j, j < MAX_TASKS → spawn2.2.tasks j = tabBoot j := by decide

theorem spawn2_cur : spawn2.2.current_task = 0 := by decide

theorem c1sA_tab : ∀ j, j < MAX_TASKS → (c1sA).tasks j = tabA j := by
  have h := schedule_tc_congr 0 spawn2.2 (litK tabBoot 0)
    (by rw [show spawn2.2.current_task = 0 from spawn2_cur]; norm_num [MAX_TASKS]) spawn2_tab spawn2_cur
  have hl : ∀ j, j < MAX_TASKS → (schedule 0 (litK tabBoot 0)).tasks j = tabA j := by decide
  simp only [c1sA]
  exact fun j hj => (h.1 j hj).trans (hl j hj)

theorem c1sA_cur : (c1sA).current_task = 1 := by
  have h := schedule_tc_congr 0 spawn2.2 (litK tabBoot 0)
    (by rw [show spawn2.2.current_task = 0 from spawn2_cur]; norm_num [MAX_TASKS]) spawn2_tab spawn2_cur
  have hl : (schedule 0 (litK tabBoot 0)).current_task = 1 := by decide
  simp only [c1sA]
  exact h.2.trans hl

theorem c1sB_tab (n1 : Nat) : ∀ j, j < MAX_TASKS → (c1sB n1).tasks j = tabA j := by
  simp only [c1sB]
  exact fun j hj => (congrFun (hb0_tick_tasks n1 c1sA) j).trans (c1sA_tab j hj)

theorem c1sB_cur (n1 : Nat) : (c1sB n1).current_task = 1 := by
  simp only [c1sB]
  exact (hb0_tick_current n1 c1sA).trans (c1sA_cur)

theorem c1sC_tab (n1 : Nat) : ∀ j, j < MAX_TASKS → (c1sC n1).tasks j = tabC j := by
  have h := schedule_tc_congr 0 (c1sB n1) (litK tabA 1)
    (by rw [show (c1sB n1).current_task = 1 from (c1sB_cur n1)]; norm_num [MAX_TASKS]) (c1sB_tab n1) (c1sB_cur n1)
  have hl : ∀ j, j < MAX_TASKS → (schedule 0 (litK tabA 1)).tasks j = tabC j := by decide
  simp only [c1sC]
  exact fun j hj => (h.1 j hj).trans (hl j hj)

theorem c1sC_cur (n1 : Nat) : (c1sC n1).current_task = 2 := by
  have h := schedule_tc_congr 0 (c1sB n1) (litK tabA 1)
    (by rw [show (c1sB n1).current_task = 1 from (c1sB_cur n1)]; norm_num [MAX_TASKS]) (c1sB_tab n1) (c1sB_cur n1)
  have hl : (schedule 0 (litK tabA 1)).current_task = 2 := by decide
  simp only [c1sC]
  exact h.2.trans hl

theorem c1sD_tab (n1 n2 : Nat) : ∀ j, j < MAX_TASKS → (c1sD n1 n2).tasks j = tabC j := by
  simp only [c1sD]
  exact fun j hj => (congrFun (hb1_tick_tasks n2 (c1sC n1)) j).trans (c1sC_tab n1 j hj)

theorem c1sD_cur (n1 n2 : Nat) : (c1sD n1 n2).current_task = 2 := by
  simp only [c1sD]
  exact (hb1_tick_current n2 (c1sC n1)).trans (c1sC_cur n1)

theorem c1sE_tab (n1 n2 : Nat) : ∀ j, j < MAX_TASKS → (c1sE n1 n2).tasks j = tabE j := by
  have h := schedule_tc_congr 0 (c1sD n1 n2) (litK tabC 2)
    (by rw [show (c1sD n1 n2).current_task = 2 from (c1sD_cur n1 n2)]; norm_num [MAX_TASKS]) (c1sD_tab n1 n2) (c1sD_cur n1 n2)
  have hl : ∀ j, j < MAX_TASKS → (schedule 0 (litK tabC 2)).tasks j = tabE j := by decide
  simp only [c1sE]
  exact fun j hj => (h.1 j hj).trans (hl j hj)

theorem c1sE_cur (n1 n2 : Nat) : (c1sE n1 n2).current_task = 3 := by
  have h := schedule_tc_congr 0 (c1sD n1 n2) (litK tabC 2)
    (by rw [show (c1sD n1 n2).current_task = 2 from (c1sD_cur n1 n2)]; norm_num [MAX_TASKS]) (c1sD_tab n1 n2) (c1sD_cur n1 n2)
  have hl : (schedule 0 (litK tabC 2)).current_task = 3 := by decide
  simp only [c1sE]
  exact h.2.trans hl

theorem c1sF_tab (n1 n2 : Nat) : ∀ j, j < MAX_TASKS → (c1sF n1 n2).tasks j = tabE j := by
  simp only [c1sF]
  exact fun j hj => (congrFun (hb0_tick_tasks 0 (c1sE n1 n2)) j).trans (c1sE_tab n1 n2 j hj)

theorem c1sF_cur (n1 n2 : Nat) : (c1sF n1 n2).current_task = 3 := by
  simp only [c1sF]
  exact (hb0_tick_current 0 (c1sE n1 n2)).trans (c1sE_cur n1 n2)

theorem c1sG_tab (n1 n2 : Nat) : ∀ j, j < MAX_TASKS → (c1sG n1 n2).tasks j = tabG j := by
  have h := schedule_tc_congr 0 (c1sF n1 n2) (litK tabE 3)
    (by rw [show (c1sF n1 n2).current_task = 3 from (c1sF_cur n1 n2)]; norm_num [MAX_TASKS]) (c1sF_tab n1 n2) (c1sF_cur n1 n2)
  have hl : ∀ j, j < MAX_TASKS → (schedule 0 (litK tabE 3)).tasks j = tabG j := by decide
  simp only [c1sG]
  exact fun j hj => (h.1 j hj).trans (hl j hj)

theorem c1sG_cur (n1 n2 : Nat) : (c1sG n1 n2).current_task = 4 := by
  have h := schedule_tc_congr 0 (c1sF n1 n2) (litK tabE 3)
    (by rw [show (c1sF n1 n2).current_task = 3 from (c1sF_cur n1 n2)]; norm_num [MAX_TASKS]) (c1sF_tab n1 n2) (c1sF_cur n1 n2)
  have hl : (schedule 0 (litK tabE 3)).current_task = 4 := by decide
  simp only [c1sG]
  exact h.2.trans hl

theorem scen1End_tab (n1 n2 : Nat) : ∀ j, j < MAX_TASKS → (scen1End n1 n2).tasks j = tabG j := by
  simp only [scen1End]
  exact fun j hj => (congrFun (hb0_tick_tasks 0 (c1sG n1 n2)) j).trans (c1sG_tab n1 n2 j hj)

theorem scen1End_cur (n1 n2 : Nat) : (scen1End n1 n2).current_task = 4 := by
  simp only [scen1End]
  exact (hb0_tick_current 0 (c1sG n1 n2)).trans (c1sG_cur n1 n2)

theorem scen2Pre_tab (n1 n2 : Nat) : ∀ j, j < MAX_TASKS → (scen2Pre n1 n2).tasks j = tabPre j := by
  have h := schedule_tc_congr 0 (scen1End n1 n2) (litK tabG 4)
    (by rw [show (scen1End n1 n2).current_task = 4 from (scen1End_cur n1 n2)]; norm_num [MAX_TASKS]) (scen1End_tab n1 n2) (scen1End_cur n1 n2)
  have hl : ∀ j, j < MAX_TASKS → (schedule 0 (litK tabG 4)).tasks j = tabPre j := by decide
  simp only [scen2Pre]
  exact fun j hj => (h.1 j hj).trans (hl j hj)

theorem scen2Pre_cur (n1 n2 : Nat) : (scen2Pre n1 n2).current_task = 0 := by
  have h := schedule_tc_congr 0 (scen1End n1 n2) (litK tabG 4)
    (by rw [show (scen1End n1 n2).current_task = 4 from (scen1End_cur n1 n2)]; norm_num [MAX_TASKS]) (scen1End_tab n1 n2) (scen1End_cur n1 n2)
  have hl : (schedule 0 (litK tabG 4)).current_task = 0 := by decide
  simp only [scen2Pre]
  exact h.2.trans hl

theorem scen2Kill_eq (n1 n2 : Nat) : scen2Kill n1 n2 = (1, { scen2Pre n1 n2 with disp := overlay_clear_line (scen2Pre n1 n2).disp 1, tasks := wrT (scen2Pre n1 n2).tasks 3 deadTask, hud_dirty := true }) := by
  have hidx : hb_instance_index "heartbeat0" 3 (scen2Pre n1 n2) = ((1 : Nat) : Int) := by
    rw [hb_instance_index_congr "heartbeat0" 3 (scen2Pre n1 n2) tabPre (scen2Pre_tab n1 n2)]
    decide
  have e3 : ((3 : Int)).toNat = 3 := rfl
  have h3 : (scen2Pre n1 n2).tasks 3 = tabPre 3 := scen2Pre_tab n1 n2 3 (by norm_num [MAX_TASKS])
  have hnd : ¬ ((scen2Pre n1 n2).tasks ((3 : Int)).toNat).state = task_state_t.dead := by
    rw [e3, h3]; decide
  have hname : ((scen2Pre n1 n2).tasks ((3 : Int)).toNat).name = some "heartbeat0" := by
    rw [e3, h3]; decide
  have hnc : ¬ (3 : Int) = (scen2Pre n1 n2).current_task := by
    rw [scen2Pre_cur n1 n2]; norm_num
  simp only [scen2Kill]
  exact task_kill_hb0 (scen2Pre n1 n2) 3 1 (by norm_num) (by norm_num [MAX_TASKS])
    hnd hnc hname hidx (by norm_num [HB_MAX_LINES])

theorem scen2Kill_fst (n1 n2 : Nat) : (scen2Kill n1 n2).1 = 1 := by
  rw [scen2Kill_eq n1 n2]

theorem scen2Kill_disp (n1 n2 : Nat) :
    (scen2Kill n1 n2).2.disp = overlay_clear_line (scen2Pre n1 n2).disp 1 := by
  rw [scen2Kill_eq n1 n2]

theorem scen2Kill_tab (n1 n2 : Nat) :
    ∀ j, j < MAX_TASKS → (scen2Kill n1 n2).2.tasks j = tabKill j := by
  intro j hj
  rw [scen2Kill_eq n1 n2]
  show wrT (scen2Pre n1 n2).tasks 3 deadTask j = tabKill j
  rw [wrT_eq]
  by_cases hj3 : j = 3
  · rw [if_pos hj3, hj3]
    decide
  · rw [if_neg hj3, scen2Pre_tab n1 n2 j hj]
    have hall : ∀ j, j < MAX_TASKS → ¬ j = 3 → tabPre j = tabKill j := by decide
    exact hall j hj hj3

theorem task_kill_cur (id : Int) (s : K) : (task_kill id s).2.current_task = s.current_task := by
  simp only [task_kill]
  split_ifs <;> rfl

theorem scen2Kill_cur (n1 n2 : Nat) : (scen2Kill n1 n2).2.current_task = 0 := by
  simp only [scen2Kill]
  exact (task_kill_cur 3 (scen2Pre n1 n2)).trans (scen2Pre_cur n1 n2)

theorem c2sA_tab (n1 n2 : Nat) : ∀ j, j < MAX_TASKS → (c2sA n1 n2).tasks j = tab2A j := by
  have h := schedule_tc_congr 0 (scen2Kill n1 n2).2 (litK tabKill 0)
    (by rw [show (scen2Kill n1 n2).2.current_task = 0 from (scen2Kill_cur n1 n2)]; norm_num [MAX_TASKS]) (scen2Kill_tab n1 n2) (scen2Kill_cur n1 n2)
  have hl : ∀ j, j < MAX_TASKS → (schedule 0 (litK tabKill 0)).tasks j = tab2A j := by decide
  simp only [c2sA]
  exact fun j hj => (h.1 j hj).trans (hl j hj)

theorem c2sA_cur (n1 n2 : Nat) : (c2sA n1 n2).current_task = 1 := by
  have h := schedule_tc_congr 0 (scen2Kill n1 n2).2 (litK tabKill 0)
    (by rw [show (scen2Kill n1 n2).2.current_task = 0 from (scen2Kill_cur n1 n2)]; norm_num [MAX_TASKS]) (scen2Kill_tab n1 n2) (scen2Kill_cur n1 n2)
  have hl : (schedule 0 (litK tabKill 0)).current_task = 1 := by decide
  simp only [c2sA]
  exact h.2.trans hl

theorem c2sB_tab (n1 n2 : Nat) : ∀ j, j < MAX_TASKS → (c2sB n1 n2).tasks j = tab2A j := by
  simp only [c2sB]
  exact fun j hj => (congrFun (hb0_tick_tasks (n1 + 1) (c2sA n1 n2)) j).trans (c2sA_tab n1 n2 j hj)

theorem c2sB_cur (n1 n2 : Nat) : (c2sB n1 n2).current_task = 1 := by
  simp only [c2sB]
  exact (hb0_tick_current (n1 + 1) (c2sA n1 n2)).trans (c2sA_cur n1 n2)

theorem c2sC_tab (n1 n2 : Nat) : ∀ j, j < MAX_TASKS → (c2sC n1 n2).tasks j = tab2C j := by
  have h := schedule_tc_congr 0 (c2sB n1 n2) (litK tab2A 1)
    (by rw [show (c2sB n1 n2).current_task = 1 from (c2sB_cur n1 n2)]; norm_num [MAX_TASKS]) (c2sB_tab n1 n2) (c2sB_cur n1 n2)
  have hl : ∀ j, j < MAX_TASKS → (schedule 0 (litK tab2A 1)).tasks j = tab2C j := by decide
  simp only [c2sC]
  exact fun j hj => (h.1 j hj).trans (hl j hj)

theorem c2sC_cur (n1 n2 : Nat) : (c2sC n1 n2).current_task = 2 := by
  have h := schedule_tc_congr 0 (c2sB n1 n2) (litK tab2A 1)
    (by rw [show (c2sB n1 n2).current_task = 1 from (c2sB_cur n1 n2)]; norm_num [MAX_TASKS]) (c2sB_tab n1 n2) (c2sB_cur n1 n2)
  have hl : (schedule 0 (litK tab2A 1)).current_task = 2 := by decide
  simp only [c2sC]
  exact h.2.trans hl

theorem c2sD_tab (n1 n2 : Nat) : ∀ j, j < MAX_TASKS → (c2sD n1 n2).tasks j = tab2C j := by
  simp only [c2sD]
  exact fun j hj => (congrFun (hb1_tick_tasks (n2 + 1) (c2sC n1 n2)) j).trans (c2sC_tab n1 n2 j hj)

theorem c2sD_cur (n1 n2 : Nat) : (c2sD n1 n2).current_task = 2 := by
  simp only [c2sD]
  exact (hb1_tick_current (n2 + 1) (c2sC n1 n2)).trans (c2sC_cur n1 n2)

theorem c2sE_tab (n1 n2 : Nat) : ∀ j, j < MAX_TASKS → (c2sE n1 n2).tasks j = tab2E j := by
  have h := schedule_tc_congr 0 (c2sD n1 n2) (litK tab2C 2)
    (by rw [show (c2sD n1 n2).current_task = 2 from (c2sD_cur n1 n2)]; norm_num [MAX_TASKS]) (c2sD_tab n1 n2) (c2sD_cur n1 n2)
  have hl : ∀ j, j < MAX_TASKS → (schedule 0 (litK tab2C 2)).tasks j = tab2E j := by decide
  simp only [c2sE]
  exact fun j hj => (h.1 j hj).trans (hl j hj)

theorem c2sE_cur (n1 n2 : Nat) : (c2sE n1 n2).current_task = 4 := by
  have h := schedule_tc_congr 0 (c2sD n1 n2) (litK tab2C 2)
    (by rw [show (c2sD n1 n2).current_task = 2 from (c2sD_cur n1 n2)]; norm_num [MAX_TASKS]) (c2sD_tab n1 n2) (c2sD_cur n1 n2)
  have hl : (schedule 0 (litK tab2C 2)).current_task = 4 := by decide
  simp only [c2sE]
  exact h.2.trans hl

/-! ## Display colour, fall-through and rendering facts along the scenarios -/

theorem task_create_disp (e : entry_t) (nm : String) (s : K) :
    (task_create e nm s).2.disp = s.disp := by
  simp only [task_create]
  split_ifs <;> rfl

theorem task_create_color (e : entry_t) (nm : String) (s : K) :
    (task_create e nm s).2.disp.term_color = s.disp.term_color :=
  congrArg Disp.term_color (task_create_disp e nm s)

theorem kinit_color : kinit.disp.term_color = 15 := by decide

theorem bootState_disp_color : bootState.disp.term_color = 15 := by
  simp only [bootState]
  exact (schedule_disp_color 0 _).trans ((task_create_color _ _ _).trans
    ((task_create_color _ _ _).trans ((task_create_color _ _ _).trans kinit_color)))

theorem spawn2_disp_color : spawn2.2.disp.term_color = 15 := by
  simp only [spawn2, spawn1]
  exact (task_create_color _ _ _).trans ((task_create_color _ _ _).trans bootState_disp_color)

theorem c1sA_color : c1sA.disp.term_color = 15 := by
  simp only [c1sA]
  exact (schedule_disp_color 0 spawn2.2).trans spawn2_disp_color

theorem c1sB_color (n1 : Nat) : (c1sB n1).disp.term_color = 15 := by
  simp only [c1sB]
  exact (hb0_tick_color n1 c1sA).trans c1sA_color

theorem c1sC_color (n1 : Nat) : (c1sC n1).disp.term_color = 15 := by
  simp only [c1sC]
  exact (schedule_disp_color 0 (c1sB n1)).trans (c1sB_color n1)

theorem c1sD_color (n1 n2 : Nat) : (c1sD n1 n2).disp.term_color = 15 := by
  simp only [c1sD]
  exact (hb1_tick_color n2 (c1sC n1)).trans (c1sC_color n1)

theorem c1sE_color (n1 n2 : Nat) : (c1sE n1 n2).disp.term_color = 15 := by
  simp only [c1sE]
  exact (schedule_disp_color 0 (c1sD n1 n2)).trans (c1sD_color n1 n2)

theorem c1sF_color (n1 n2 : Nat) : (c1sF n1 n2).disp.term_color = 15 := by
  simp only [c1sF]
  exact (hb0_tick_color 0 (c1sE n1 n2)).trans (c1sE_color n1 n2)

theorem c1sG_color (n1 n2 : Nat) : (c1sG n1 n2).disp.term_color = 15 := by
  simp only [c1sG]
  exact (schedule_disp_color 0 (c1sF n1 n2)).trans (c1sF_color n1 n2)

theorem scen1End_color (n1 n2 : Nat) : (scen1End n1 n2).disp.term_color = 15 := by
  simp only [scen1End]
  exact (hb0_tick_color 0 (c1sG n1 n2)).trans (c1sG_color n1 n2)

theorem scen2Pre_color (n1 n2 : Nat) : (scen2Pre n1 n2).disp.term_color = 15 := by
  simp only [scen2Pre]
  exact (schedule_disp_color 0 (scen1End n1 n2)).trans (scen1End_color n1 n2)

theorem scen2Kill_color (n1 n2 : Nat) : (scen2Kill n1 n2).2.disp.term_color = 15 :=
  (congrArg Disp.term_color (scen2Kill_disp n1 n2)).trans
    ((overlay_clear_line_color (scen2Pre n1 n2).disp 1).trans (scen2Pre_color n1 n2))

theorem c2sA_color (n1 n2 : Nat) : (c2sA n1 n2).disp.term_color = 15 := by
  simp only [c2sA]
  exact (schedule_disp_color 0 (scen2Kill n1 n2).2).trans (scen2Kill_color n1 n2)

theorem c2sB_color (n1 n2 : Nat) : (c2sB n1 n2).disp.term_color = 15 := by
  simp only [c2sB]
  exact (hb0_tick_color (n1 + 1) (c2sA n1 n2)).trans (c2sA_color n1 n2)

theorem c2sC_color (n1 n2 : Nat) : (c2sC n1 n2).disp.term_color = 15 := by
  simp only [c2sC]
  exact (schedule_disp_color 0 (c2sB n1 n2)).trans (c2sB_color n1 n2)

theorem c2sD_color (n1 n2 : Nat) : (c2sD n1 n2).disp.term_color = 15 := by
  simp only [c2sD]
  exact (hb1_tick_color (n2 + 1) (c2sC n1 n2)).trans (c2sC_color n1 n2)

theorem c2sE_color (n1 n2 : Nat) : (c2sE n1 n2).disp.term_color = 15 := by
  simp only [c2sE]
  exact (schedule_disp_color 0 (c2sD n1 n2)).trans (c2sD_color n1 n2)

theorem c1sC_mem_lo (n1 : Nat) (j : Nat) (h : j < (VGA_HEIGHT - 6) * VGA_WIDTH) :
    (c1sC n1).disp.mem j = (c1sB n1).disp.mem j := by
  simp only [c1sC]
  exact schedule_disp_mem_lo 0 (c1sB n1) j h

theorem c1sE_mem_lo (n1 n2 : Nat) (j : Nat) (h : j < (VGA_HEIGHT - 6) * VGA_WIDTH) :
    (c1sE n1 n2).disp.mem j = (c1sD n1 n2).disp.mem j := by
  simp only [c1sE]
  exact schedule_disp_mem_lo 0 (c1sD n1 n2) j h

theorem c1sG_mem_lo (n1 n2 : Nat) (j : Nat) (h : j < (VGA_HEIGHT - 6) * VGA_WIDTH) :
    (c1sG n1 n2).disp.mem j = (c1sF n1 n2).disp.mem j := by
  simp only [c1sG]
  exact schedule_disp_mem_lo 0 (c1sF n1 n2) j h

theorem scen2Pre_mem_lo (n1 n2 : Nat) (j : Nat) (h : j < (VGA_HEIGHT - 6) * VGA_WIDTH) :
    (scen2Pre n1 n2).disp.mem j = (scen1End n1 n2).disp.mem j := by
  simp only [scen2Pre]
  exact schedule_disp_mem_lo 0 (scen1End n1 n2) j h

theorem idxB : hb_instance_index "heartbeat0" c1sA.current_task c1sA = ((0 : Nat) : Int) := by
  rw [c1sA_cur, hb_instance_index_congr "heartbeat0" 1 c1sA tabA c1sA_tab]
  decide

theorem idxD (n1 : Nat) :
    hb_instance_index "heartbeat1" (c1sC n1).current_task (c1sC n1) = ((0 : Nat) : Int) := by
  rw [c1sC_cur n1, hb_instance_index_congr "heartbeat1" 2 (c1sC n1) tabC (c1sC_tab n1)]
  decide

theorem idxF (n1 n2 : Nat) :
    hb_instance_index "heartbeat0" (c1sE n1 n2).current_task (c1sE n1 n2) = ((1 : Nat) : Int) := by
  rw [c1sE_cur n1 n2, hb_instance_index_congr "heartbeat0" 3 (c1sE n1 n2) tabE (c1sE_tab n1 n2)]
  decide

theorem idxH (n1 n2 : Nat) :
    hb_instance_index "heartbeat0" (c1sG n1 n2).current_task (c1sG n1 n2) = ((2 : Nat) : Int) := by
  rw [c1sG_cur n1 n2, hb_instance_index_congr "heartbeat0" 4 (c1sG n1 n2) tabG (c1sG_tab n1 n2)]
  decide

theorem idx2F (n1 n2 : Nat) :
    hb_instance_index "heartbeat0" (c2sE n1 n2).current_task (c2sE n1 n2) = ((1 : Nat) : Int) := by
  rw [c2sE_cur n1 n2, hb_instance_index_congr "heartbeat0" 4 (c2sE n1 n2) tab2E (c2sE_tab n1 n2)]
  decide

/-- After `kill 3`, the surviving heartbeat0 in slot 4 computes instance
index 1 (slot 1 is the remaining earlier heartbeat0; slot 3 is DEAD and
skipped by the scan). -/
theorem scen2_reindex (n1 n2 : Nat) :
    hb_instance_index "heartbeat0" 4 (scen2Kill n1 n2).2 = 1 := by
  rw [hb_instance_index_congr "heartbeat0" 4 (scen2Kill n1 n2).2 tabKill (scen2Kill_tab n1 n2)]
  decide

theorem hdatHB0 : ("HB0 #").data = ['H', 'B', '0', ' ', '#'] := rfl

theorem hdatHB1 : ("HB1 #").data = ['H', 'B', '1', ' ', '#'] := rfl

theorem hdatColon : (" : ").data = [' ', ':', ' '] := rfl

theorem c1sB_disp (n1 : Nat) : (c1sB n1).disp =
    terminal_putc_at (terminal_write_at (terminal_putc_at (terminal_write_at
      (overlay_clear_line c1sA.disp (HB0_ROW_BASE + 0)) (HB0_ROW_BASE + 0) HB_COL "HB0 #")
      (HB0_ROW_BASE + 0) (HB_COL + 5) (48 + ((1 : Int) % 10).toNat))
      (HB0_ROW_BASE + 0) (HB_COL + 6) " : ") (HB0_ROW_BASE + 0) (HB_COL + 9) (48 + n1 % 10) := by
  simp only [c1sB]
  have hd := hb0_tick_disp n1 c1sA 0 idxB (by norm_num [HB_MAX_LINES])
  rw [c1sA_cur] at hd
  exact hd

theorem c1sD_disp (n1 n2 : Nat) : (c1sD n1 n2).disp =
    terminal_putc_at (terminal_write_at (terminal_putc_at (terminal_write_at
      (overlay_clear_line (c1sC n1).disp (HB1_ROW_BASE + 0)) (HB1_ROW_BASE + 0) HB_COL "HB1 #")
      (HB1_ROW_BASE + 0) (HB_COL + 5) (48 + ((2 : Int) % 10).toNat))
      (HB1_ROW_BASE + 0) (HB_COL + 6) " : ") (HB1_ROW_BASE + 0) (HB_COL + 9) (48 + n2 % 10) := by
  simp only [c1sD]
  have hd := hb1_tick_disp n2 (c1sC n1) 0 (idxD n1) (by norm_num [HB_MAX_LINES])
  rw [c1sC_cur n1] at hd
  exact hd

theorem c1sF_disp (n1 n2 : Nat) : (c1sF n1 n2).disp =
    terminal_putc_at (terminal_write_at (terminal_putc_at (terminal_write_at
      (overlay_clear_line (c1sE n1 n2).disp (HB0_ROW_BASE + 1)) (HB0_ROW_BASE + 1) HB_COL "HB0 #")
      (HB0_ROW_BASE + 1) (HB_COL + 5) (48 + ((3 : Int) % 10).toNat))
      (HB0_ROW_BASE + 1) (HB_COL + 6) " : ") (HB0_ROW_BASE + 1) (HB_COL + 9) (48 + 0 % 10) := by
  simp only [c1sF]
  have hd := hb0_tick_disp 0 (c1sE n1 n2) 1 (idxF n1 n2) (by norm_num [HB_MAX_LINES])
  rw [c1sE_cur n1 n2] at hd
  exact hd

theorem scen1End_disp (n1 n2 : Nat) : (scen1End n1 n2).disp =
    terminal_putc_at (terminal_write_at (terminal_putc_at (terminal_write_at
      (overlay_clear_line (c1sG n1 n2).disp (HB0_ROW_BASE + 2)) (HB0_ROW_BASE + 2) HB_COL "HB0 #")
      (HB0_ROW_BASE + 2) (HB_COL + 5) (48 + ((4 : Int) % 10).toNat))
      (HB0_ROW_BASE + 2) (HB_COL + 6) " : ") (HB0_ROW_BASE + 2) (HB_COL + 9) (48 + 0 % 10) := by
  simp only [scen1End]
  have hd := hb0_tick_disp 0 (c1sG n1 n2) 2 (idxH n1 n2) (by norm_num [HB_MAX_LINES])
  rw [c1sG_cur n1 n2] at hd
  exact hd

theorem scen2End_disp (n1 n2 : Nat) : (scen2End n1 n2).disp =
    terminal_putc_at (terminal_write_at (terminal_putc_at (terminal_write_at
      (overlay_clear_line (c2sE n1 n2).disp (HB0_ROW_BASE + 1)) (HB0_ROW_BASE + 1) HB_COL "HB0 #")
      (HB0_ROW_BASE + 1) (HB_COL + 5) (48 + ((4 : Int) % 10).toNat))
      (HB0_ROW_BASE + 1) (HB_COL + 6) " : ") (HB0_ROW_BASE + 1) (HB_COL + 9) (48 + 1 % 10) := by
  simp only [scen2End]
  have hd := hb0_tick_disp 1 (c2sE n1 n2) 1 (idx2F n1 n2) (by norm_num [HB_MAX_LINES])
  rw [c2sE_cur n1 n2] at hd
  exact hd

/-! ## Overlay row contents at the ends of the two scenarios (C1, C2) -/

theorem scen1_row2 (n1 n2 : Nat) : rowShowsHB (scen1End n1 n2).disp 2 0 4 0 := by
  simp only [rowShowsHB]
  rw [scen1End_disp n1 n2]
  simp [terminal_write_at, terminal_write_at_list, terminal_putc_at, overlay_clear_line,
    put_spaces, wr, hdatHB0, hdatColon, HB0_ROW_BASE, HB_COL, VGA_WIDTH, VGA_HEIGHT,
    c1sG_color n1 n2]

theorem scen1_row1 (n1 n2 : Nat) : rowShowsHB (scen1End n1 n2).disp 1 0 3 0 := by
  simp only [rowShowsHB]
  rw [scen1End_disp n1 n2]
  simp [terminal_write_at, terminal_write_at_list, terminal_putc_at, overlay_clear_line,
    put_spaces, wr, hdatHB0, hdatColon, HB0_ROW_BASE, HB_COL, VGA_WIDTH, VGA_HEIGHT,
    c1sG_mem_lo n1 n2, c1sF_disp n1 n2, c1sE_color n1 n2]

theorem scen1_row0 (n1 n2 : Nat) : rowShowsHB (scen1End n1 n2).disp 0 0 1 (n1 % 10) := by
  simp only [rowShowsHB]
  rw [scen1End_disp n1 n2]
  simp [terminal_write_at, terminal_write_at_list, terminal_putc_at, overlay_clear_line,
    put_spaces, wr, hdatHB0, hdatHB1, hdatColon, HB0_ROW_BASE, HB1_ROW_BASE, HB_COL,
    VGA_WIDTH, VGA_HEIGHT, c1sG_mem_lo n1 n2, c1sF_disp n1 n2, c1sE_mem_lo n1 n2,
    c1sD_disp n1 n2, c1sC_mem_lo n1, c1sB_disp n1, c1sA_color]

/-- The 20 overlay cells of row 1 are spaces right after `kill 3`:
`task_kill` cleared the overlay line of the victim, which is line 1 by the
pre-kill instance index of slot 3. -/
theorem scen2_killrow (n1 n2 : Nat) :
    ∀ c, c < 20 → (scen2Kill n1 n2).2.disp.mem (1 * VGA_WIDTH + (HB_COL + c)) = vga_entry 32 15 := by
  intro c hc
  rw [scen2Kill_disp n1 n2,
    overlay_clear_line_mem (scen2Pre n1 n2).disp 1 (by norm_num [VGA_HEIGHT]),
    if_pos (by simp only [VGA_WIDTH, HB_COL]; omega), scen2Pre_color n1 n2]

/-- Overlay row 0 is untouched by `kill 3`: it still shows the header and
the id digit 1 of the original heartbeat0 instance in slot 1. -/
theorem scen2_row0_after (n1 n2 : Nat) :
    (scen2Kill n1 n2).2.disp.mem 60 = vga_entry 72 15 ∧
    (scen2Kill n1 n2).2.disp.mem 65 = vga_entry 49 15 := by
  rw [scen2Kill_disp n1 n2]
  simp [overlay_clear_line, put_spaces, terminal_putc_at, terminal_write_at,
    terminal_write_at_list, wr, hdatHB0, hdatHB1, hdatColon, HB0_ROW_BASE, HB1_ROW_BASE,
    HB_COL, VGA_WIDTH, VGA_HEIGHT, scen2Pre_mem_lo n1 n2, scen1End_disp n1 n2,
    c1sG_mem_lo n1 n2, c1sF_disp n1 n2, c1sE_mem_lo n1 n2, c1sD_disp n1 n2,
    c1sC_mem_lo n1, c1sB_disp n1, c1sA_color]

theorem scen2_row1_end (n1 n2 : Nat) : rowShowsHB (scen2End n1 n2).disp 1 0 4 1 := by
  simp only [rowShowsHB]
  rw [scen2End_disp n1 n2]
  simp [terminal_write_at, terminal_write_at_list, terminal_putc_at, overlay_clear_line,
    put_spaces, wr, hdatHB0, hdatColon, HB0_ROW_BASE, HB_COL, VGA_WIDTH, VGA_HEIGHT,
    c2sE_color n1 n2]

theorem spawn_ids : spawn1.1 = 3 ∧ spawn2.1 = 4 := by decide

theorem spawn_idx : hb_instance_index "heartbeat0" 3 spawn2.2 = 1 ∧
    hb_instance_index "heartbeat0" 4 spawn2.2 = 2 := by decide

/-- C1 (amended).  From a fresh boot, entering `spawn hb0` twice does create
heartbeat0 tasks in slots 3 and 4; but the instance-index rule gives them
instance indices 1 and 2 (slot 1 keeps index 0), so after the scheduler next
visits each task the two new instances render on overlay rows 1 and 2 as
`HB0 #3 : 0` and `HB0 #4 : 0`, while row 0 continues to show the original
instance of slot 1 (`HB0 #1 : <n1%10>`). -/
theorem c1_spawn_overlay_rows (n1 n2 : Nat) :
    spawn1.1 = 3 ∧ spawn2.1 = 4 ∧
    hb_instance_index "heartbeat0" 3 spawn2.2 = 1 ∧
    hb_instance_index "heartbeat0" 4 spawn2.2 = 2 ∧
    rowShowsHB (scen1End n1 n2).disp 1 0 3 0 ∧
    rowShowsHB (scen1End n1 n2).disp 2 0 4 0 ∧
    rowShowsHB (scen1End n1 n2).disp 0 0 1 (n1 % 10) :=
  ⟨spawn_ids.1, spawn_ids.2, spawn_idx.1, spawn_idx.2,
    scen1_row1 n1 n2, scen1_row2 n1 n2, scen1_row0 n1 n2⟩

/-- C1 counterexample to the spec text: overlay row 0 does NOT show one of
the two newly spawned instances (ids 3 and 4); its id-digit cell still shows
`1`, the original instance of slot 1. -/
theorem c1_counterexample :
    spawn1.1 = 3 ∧ spawn2.1 = 4 ∧
    (scen1End 0 0).disp.mem (0 * VGA_WIDTH + 65) = vga_entry 49 15 ∧
    vga_entry 49 15 ≠ vga_entry 51 15 ∧ vga_entry 49 15 ≠ vga_entry 52 15 :=
  ⟨spawn_ids.1, spawn_ids.2, (scen1_row0 0 0).2.2.2.2.2.1, by decide, by decide⟩

/-- C2 (amended).  In scenario 2, `kill 3` succeeds (returns 1) and clears
overlay row 1 — the instance index of slot 3 before the kill — while row 0
is untouched and keeps showing slot 1.  The surviving new heartbeat0 in
slot 4 re-indexes to instance index 1 on its next tick and writes overlay
row 1 thereafter (`HB0 #4 : 1`). -/
theorem c2_kill_clears_row1 (n1 n2 : Nat) :
    (scen2Kill n1 n2).1 = 1 ∧
    (∀ c, c < 20 → (scen2Kill n1 n2).2.disp.mem (1 * VGA_WIDTH + (HB_COL + c)) = vga_entry 32 15) ∧
    (scen2Kill n1 n2).2.disp.mem 65 = vga_entry 49 15 ∧
    hb_instance_index "heartbeat0" 4 (scen2Kill n1 n2).2 = 1 ∧
    rowShowsHB (scen2End n1 n2).disp 1 0 4 1 :=
  ⟨scen2Kill_fst n1 n2, scen2_killrow n1 n2, (scen2_row0_after n1 n2).2,
    scen2_reindex n1 n2, scen2_row1_end n1 n2⟩

theorem c2_kill_clears_row1_witness :
    (scen2Kill 0 0).1 = 1 ∧
    (scen2Kill 0 0).2.disp.mem (1 * VGA_WIDTH + (HB_COL + 0)) = vga_entry 32 15 :=
  ⟨(c2_kill_clears_row1 0 0).1, (c2_kill_clears_row1 0 0).2.1 0 (by norm_num)⟩

/-- C2 counterexample to the spec text: `kill 3` clears overlay row 1, not
row 0 (whose `H` header cell survives), and the surviving heartbeat0 in
slot 4 re-indexes to instance index 1, not 0. -/
theorem c2_counterexample :
    (scen2Kill 0 0).1 = 1 ∧
    (scen2Kill 0 0).2.disp.mem 60 = vga_entry 72 15 ∧
    vga_entry 72 15 ≠ vga_entry 32 15 ∧
    (scen2Kill 0 0).2.disp.mem (1 * VGA_WIDTH + (HB_COL + 0)) = vga_entry 32 15 ∧
    hb_instance_index "heartbeat0" 4 (scen2Kill 0 0).2 = 1 ∧ (1 : Int) ≠ 0 :=
  ⟨scen2Kill_fst 0 0, (scen2_row0_after 0 0).1, by decide,
    scen2_killrow 0 0 0 (by norm_num), scen2_reindex 0 0, by decide⟩

/-! ## Keyboard poller, line editor, parser -/

/-- Tagged key event; C `key_event_t` (kernel.c lines 49-62).  `KEY_NONE`
is represented by `Option.none` at the `keyboard_try_get_key` result. -/
inductive key_event_t where
  | char (c : Nat)
  | enter
  | backspace
  | left
  | right
  | delete
deriving DecidableEq, Repr

/-- The persistent keyboard modifier state: the global `shift_down` and the
function-static `e0` of `keyboard_try_get_key`. -/
structure kbd_state_t where
  shift_down : Bool
  e0 : Bool
deriving DecidableEq, Repr

/-- `scancode_to_ascii` (kernel.c lines 262-271), entries as byte values;
the C initializer leaves indices 58-127 zero. -/
def scancode_to_ascii : List Nat :=
  [0, 27, 49, 50, 51, 52, 53, 54, 55, 56, 57, 48, 45, 61, 8,
   9, 113, 119, 101, 114, 116, 121, 117, 105, 111, 112, 91, 93, 10, 0,
   97, 115, 100, 102, 103, 104, 106, 107, 108, 59, 39, 96, 0, 92,
   122, 120, 99, 118, 98, 110, 109, 44, 46, 47, 0, 42, 0, 32] ++
  List.replicate 70 0

/-- `scancode_to_ascii_shift` (kernel.c lines 273-282). -/
def scancode_to_ascii_shift : List Nat :=
  [0, 27, 33, 64, 35, 36, 37, 94, 38, 42, 40, 41, 95, 43, 8,
   9, 81, 87, 69, 82, 84, 89, 85, 73, 79, 80, 123, 125, 10, 0,
   65, 83, 68, 70, 71, 72, 74, 75, 76, 58, 34, 126, 0, 124,
   90, 88, 67, 86, 66, 78, 77, 60, 62, 63, 0, 42, 0, 32] ++
  List.replicate 70 0

/-- `keyboard_try_get_key` (kernel.c lines 286-328) given that the status
port reported a byte `sc` available on the data port.  Returns the emitted
event (or `none`) and the new modifier state. -/
def keyboard_try_get_key (st : kbd_state_t) (sc : Nat) : Option key_event_t × kbd_state_t :=
  if sc = 224 then (none, { st with e0 := true })
  else
    let released := sc &&& 128 ≠ 0
    let code := sc &&& 127
    if ¬st.e0 ∧ (code = 42 ∨ code = 54) then (none, { st with shift_down := ¬released })
    else if released then (none, { st with e0 := false })
    else if st.e0 then
      (match code with
       | 75 => some .left
       | 77 => some .right
       | 83 => some .delete
       | _ => none,
       { st with e0 := false })
    else
      let c := if st.shift_down then scancode_to_ascii_shift.getD code 0 else scancode_to_ascii.getD code 0
      if c = 0 then (none, st)
      else if c = 10 then (some .enter, st)
      else if c = 8 then (some .backspace, st)
      else if c < 32 ∨ c > 126 then (none, st)
      else (some (.char c), st)

/-- The stream of events `read_line` sees when the keyboard delivers the
byte sequence `scs`: each byte runs through `keyboard_try_get_key`,
no-event bytes produce nothing (the task just yields). -/
def kbd_events (st : kbd_state_t) : List Nat → List key_event_t
  | [] => []
  | sc :: rest =>
    match keyboard_try_get_key st sc with
    | (some ev, st2) => ev :: kbd_events st2 rest
    | (none, st2) => kbd_events st2 rest

/-- Line-editor state: the output byte buffer `out` (contents of the
caller-provided char array) and the locals `len` and `cur` of `read_line`. -/
structure ed_state_t where
  out : Nat → Nat
  len : Nat
  cur : Nat

/-- The left-shifting deletion loops of `read_line` (kernel.c lines 697 and
703): `k` iterations of `out[i] = out[i+1]; i++`. -/
def shiftLeftGo (out : Nat → Nat) (i : Nat) : Nat → (Nat → Nat)
  | 0 => out
  | k + 1 => shiftLeftGo (wr out i (out (i + 1))) (i + 1) k

/-- The right-shifting insertion loop of `read_line` (kernel.c line 709):
`k` iterations of `out[i] = out[i-1]; i--` starting at `i`. -/
def shiftRightGo (out : Nat → Nat) (i : Nat) : Nat → (Nat → Nat)
  | 0 => out
  | k + 1 => shiftRightGo (wr out i (out (i - 1))) (i - 1) k

/-- One non-ENTER editing step of `read_line` (kernel.c lines 690-715).
The redraw that follows every step (lines 717-728) writes only the display
and is not part of the buffer state.  The `.enter` case is handled by
`read_line_go` (the C code returns before reaching the editing code). -/
def ed_step (cap : Nat) (st : ed_state_t) : key_event_t → ed_state_t
  | .left => if st.cur > 0 then { st with cur := st.cur - 1 } else st
  | .right => if st.cur < st.len then { st with cur := st.cur + 1 } else st
  | .backspace =>
    if st.cur > 0 then
      { st with out := shiftLeftGo st.out (st.cur - 1) (st.len - (st.cur - 1)),
                cur := st.cur - 1, len := st.len - 1 }
    else st
  | .delete =>
    if st.cur < st.len then
      { st with out := shiftLeftGo st.out st.cur (st.len - st.cur), len := st.len - 1 }
    else st
  | .char c =>
    if st.len + 1 < cap then
      let out1 := shiftRightGo st.out st.len (st.len - st.cur)
      let out2 := wr out1 st.cur c
      { out := wr out2 (st.len + 1) 0, len := st.len + 1, cur := st.cur + 1 }
    else st
  | .enter => st

/-- The event loop of `read_line` (kernel.c lines 672-729) on the event
stream `evs`: ENTER terminates the line (`out[len] = 0`) and returns. -/
def read_line_go (cap : Nat) (st : ed_state_t) : List key_event_t → ed_state_t
  | [] => st
  | .enter :: _ => { st with out := wr st.out st.len 0 }
  | ev :: rest => read_line_go cap (ed_step cap st ev) rest

/-- `read_line` (kernel.c lines 661-730) as a function of the buffer
capacity, the initial (arbitrary) buffer contents, and the event stream:
`len = cur = 0` and `out[0] = 0` initially. -/
def read_line (cap : Nat) (out0 : Nat → Nat) (evs : List key_event_t) : ed_state_t :=
  read_line_go cap { out := wr out0 0 0, len := 0, cur := 0 } evs

/-- `parse_u32`'s character loop (kernel.c lines 225-231): `v` is a C
`uint32_t`, so each step wraps modulo 2^32; `any` records that at least
one digit was seen. -/
def parse_u32_go : List Char → Nat → Bool → Option Nat
  | [], v, any => if any then some v else none
  | c :: rest, v, _ =>
    if c.toNat < 48 ∨ 57 < c.toNat then none
    else parse_u32_go rest ((v * 10 + (c.toNat - 48)) % 4294967296) true

/-- `parse_u32` (kernel.c lines 222-234): `some v` models returning 1 with
`*out = v`, `none` models returning 0. -/
def parse_u32 (s : String) : Option Nat := parse_u32_go s.data 0 false

/-- The mathematical value denoted by a decimal digit string (specification
side, for comparison with `parse_u32`). -/
def digitsVal (l : List Char) : Nat := l.foldl (fun a c => a * 10 + (c.toNat - 48)) 0

/-- The conversion `(int)id` applied by the shell to the parsed `uint32_t`
before calling `task_kill` (kernel.c line 570), with the usual two's
complement wrap-around. -/
def int_of_u32 (v : Nat) : Int :=
  if v < 2147483648 then (v : Int) else (v : Int) - 4294967296

/-- The task id the shell command `kill <arg>` passes to `task_kill`
(kernel.c lines 568-570): `none` when the parse fails. -/
def shell_kill_target (arg : String) : Option Int := (parse_u32 arg).map int_of_u32

/-! ## Task table claims: kill result, slot allocation -/

theorem task_kill_fst (s : K) (id : Int) :
    (task_kill id s).1 =
      if id < 0 ∨ (MAX_TASKS : Int) ≤ id ∨ (s.tasks id.toNat).state = .dead ∨ id = s.current_task
      then 0 else 1 := by
  unfold task_kill
  split_ifs with h1 h2 h3 h4 <;> simp_all <;> first | tauto | omega

/-- C4: `task_kill(id)` returns 0 exactly when `id` is out of `[0, 8)`, the
slot is already DEAD, or `id` is the current task; in every other case it
returns 1.  In particular the current task can never kill itself. -/
theorem task_kill_zero_iff (s : K) (id : Int) :
    ((task_kill id s).1 = 0 ↔
      (id < 0 ∨ (MAX_TASKS : Int) ≤ id ∨ (s.tasks id.toNat).state = .dead ∨ id = s.current_task)) ∧
    (¬(id < 0 ∨ (MAX_TASKS : Int) ≤ id ∨ (s.tasks id.toNat).state = .dead ∨ id = s.current_task) →
      (task_kill id s).1 = 1) ∧
    (task_kill s.current_task s).1 = 0 := by
  have h := task_kill_fst s id
  have h2 := task_kill_fst s s.current_task
  constructor
  · rw [h]; split_ifs with hc <;> simp [hc]
  constructor
  · intro hc; rw [h, if_neg hc]
  · rw [h2]
    split_ifs with hc
    · rfl
    · exact absurd (Or.inr (Or.inr (Or.inr rfl))) hc

theorem task_alloc_go_eq_ofNat (k : Nat) :
    ∀ (i m : Nat) (tasks : Nat → task_t),
      (task_alloc_go tasks i k = (m : Int) ↔
        i ≤ m ∧ m < i + k ∧ (tasks m).state = .dead ∧
          ∀ j, i ≤ j → j < m → (tasks j).state ≠ .dead) := by
  induction k with
  | zero =>
    intro i m tasks
    simp only [task_alloc_go]
    constructor
    · intro h; exact absurd h (by omega)
    · rintro ⟨h1, h2, -, -⟩; omega
  | succ k ih =>
    intro i m tasks
    simp only [task_alloc_go, Int.ofNat_eq_coe]
    by_cases hd : (tasks i).state = .dead
    · rw [if_pos hd]
      constructor
      · intro h
        have him : i = m := by omega
        subst him
        exact ⟨le_refl i, by omega, hd, fun j hj1 hj2 => absurd (lt_of_le_of_lt hj1 hj2) (lt_irrefl i)⟩
      · rintro ⟨h1, h2, h3, h4⟩
        rcases Nat.eq_or_lt_of_le h1 with he | hlt
        · rw [he]
        · exact absurd hd (h4 i (le_refl i) hlt)
    · rw [if_neg hd, ih (i + 1) m tasks]
      constructor
      · rintro ⟨h1, h2, h3, h4⟩
        refine ⟨by omega, by omega, h3, fun j hj1 hj2 => ?_⟩
        rcases Nat.eq_or_lt_of_le hj1 with he | hlt
        · rw [← he]; exact hd
        · exact h4 j hlt hj2
      · rintro ⟨h1, h2, h3, h4⟩
        have h1' : i + 1 ≤ m := by
          rcases Nat.eq_or_lt_of_le h1 with he | hlt
          · rw [← he] at h3; exact absurd h3 hd
          · omega
        exact ⟨h1', by omega, h3, fun j hj1 hj2 => h4 j (by omega) hj2⟩

theorem task_alloc_go_eq_neg (k : Nat) :
    ∀ (i : Nat) (tasks : Nat → task_t),
      (task_alloc_go tasks i k = -1 ↔ ∀ j, i ≤ j → j < i + k → (tasks j).state ≠ .dead) := by
  induction k with
  | zero =>
    intro i tasks
    simp only [task_alloc_go]
    constructor
    · intro _ j hj1 hj2; omega
    · intro _; trivial
  | succ k ih =>
    intro i tasks
    simp only [task_alloc_go, Int.ofNat_eq_coe]
    by_cases hd : (tasks i).state = .dead
    · rw [if_pos hd]
      constructor
      · intro h; exact absurd h (by omega)
      · intro h; exact absurd hd (h i (le_refl i) (by omega))
    · rw [if_neg hd, ih (i + 1) tasks]
      constructor
      · intro h j hj1 hj2
        rcases Nat.eq_or_lt_of_le hj1 with he | hlt
        · rw [← he]; exact hd
        · exact h j hlt (by omega)
      · intro h j hj1 hj2
        exact h j (by omega) (by omega)

/-- C5: `task_alloc_slot` returns the lowest DEAD slot index, or -1 when
every slot in `[0, 8)` is non-DEAD; and in the latter case `task_create`
returns -1 and leaves the whole state (in particular every field of the
task table) unchanged. -/
theorem task_alloc_lowest (s : K) (i : Nat) (e : entry_t) (nm : String) :
    (task_alloc_slot s = (i : Int) ↔
      i < MAX_TASKS ∧ (s.tasks i).state = .dead ∧ ∀ j, j < i → (s.tasks j).state ≠ .dead) ∧
    (task_alloc_slot s = -1 ↔ ∀ j, j < MAX_TASKS → (s.tasks j).state ≠ .dead) ∧
    ((∀ j, j < MAX_TASKS → (s.tasks j).state ≠ .dead) → task_create e nm s = (-1, s)) := by
  refine ⟨?_, ?_, ?_⟩
  · rw [task_alloc_slot, task_alloc_go_eq_ofNat MAX_TASKS 0 i s.tasks]
    constructor
    · rintro ⟨-, h2, h3, h4⟩
      exact ⟨by omega, h3, fun j hj => h4 j (Nat.zero_le j) hj⟩
    · rintro ⟨h1, h2, h3⟩
      exact ⟨Nat.zero_le i, by omega, h2, fun j _ hj => h3 j hj⟩
  · rw [task_alloc_slot, task_alloc_go_eq_neg MAX_TASKS 0 s.tasks]
    constructor
    · intro h j hj; exact h j (Nat.zero_le j) (by omega)
    · intro h j _ hj; exact h j (by omega)
  · intro h
    have halloc : task_alloc_slot s = -1 := by
      rw [task_alloc_slot, task_alloc_go_eq_neg MAX_TASKS 0 s.tasks]
      intro j _ hj; exact h j (by omega)
    unfold task_create
    rw [halloc]
    norm_num

/-- Witness for C5 at a state with all 8 slots live: eight `task_create`
calls from the boot-init state fill the table, and the ninth returns -1
with the state unchanged. -/
def full8 : K :=
  (task_create .hb0 "heartbeat0" (task_create .hb0 "heartbeat0"
    (task_create .hb0 "heartbeat0" (task_create .hb0 "heartbeat0"
      (task_create .hb0 "heartbeat0" (task_create .hb1 "heartbeat1"
        (task_create .hb0 "heartbeat0" (task_create .shell "shell" kinit).2).2).2).2).2).2).2).2

theorem task_alloc_lowest_witness :
    task_create .hb0 "heartbeat0" full8 = (-1, full8) ∧ task_alloc_slot full8 = -1 :=
  ⟨(task_alloc_lowest full8 0 .hb0 "heartbeat0").2.2 (by decide),
   (task_alloc_lowest full8 0 .hb0 "heartbeat0").2.1.mpr (by decide)⟩

/-! ## Parser claim -/

theorem digits_foldl_mod (l : List Char) :
    ∀ a b : Nat, a % 4294967296 = b % 4294967296 →
      (l.foldl (fun x c => x * 10 + (c.toNat - 48)) a) % 4294967296 =
        (l.foldl (fun x c => x * 10 + (c.toNat - 48)) b) % 4294967296 := by
  induction l with
  | nil => intro a b h; simpa using h
  | cons c rest ih =>
    intro a b h
    simp only [List.foldl_cons]
    exact ih _ _ ((Nat.ModEq.mul_right 10 h).add_right (c.toNat - 48))

theorem parse_u32_go_digits (l : List Char) :
    ∀ v : Nat, (∀ c ∈ l, 48 ≤ c.toNat ∧ c.toNat ≤ 57) →
      parse_u32_go l (v % 4294967296) true =
        some ((l.foldl (fun x c => x * 10 + (c.toNat - 48)) v) % 4294967296) := by
  induction l with
  | nil => intro v _; simp [parse_u32_go]
  | cons c rest ih =>
    intro v hd
    have hc := hd c (List.mem_cons_self c rest)
    simp only [parse_u32_go, List.foldl_cons]
    rw [if_neg (by omega)]
    have key : (v % 4294967296 * 10 + (c.toNat - 48)) % 4294967296 =
        (v * 10 + (c.toNat - 48)) % 4294967296 :=
      ((Nat.mod_modEq v 4294967296).mul_right 10).add_right (c.toNat - 48)
    rw [key]
    exact ih (v * 10 + (c.toNat - 48)) (fun x hx => hd x (List.mem_cons_of_mem c hx))

/-- C10: on a non-empty all-digit string, `parse_u32` succeeds and returns
the denoted value reduced modulo 2^32; consequently `kill <u>` with an
overflowing numeral calls `task_kill` on `(int)(value mod 2^32)`, so
`kill 4294967297` targets task 1. -/
theorem parse_u32_mod (str : String) (h1 : str.data ≠ [])
    (h2 : ∀ c ∈ str.data, 48 ≤ c.toNat ∧ c.toNat ≤ 57) :
    parse_u32 str = some (digitsVal str.data % 4294967296) ∧
    shell_kill_target "4294967297" = some 1 := by
  constructor
  · unfold parse_u32 digitsVal
    rcases hl : str.data with - | ⟨c, rest⟩
    · exact absurd hl h1
    · have hc := h2 c (hl ▸ List.mem_cons_self c rest)
      have hrest : ∀ x ∈ rest, 48 ≤ x.toNat ∧ x.toNat ≤ 57 :=
        fun x hx => h2 x (hl ▸ List.mem_cons_of_mem c hx)
      simp only [parse_u32_go, List.foldl_cons]
      rw [if_neg (by omega)]
      exact parse_u32_go_digits rest (0 * 10 + (c.toNat - 48)) hrest
  · decide

theorem parse_u32_mod_witness :
    parse_u32 "4294967297" = some 1 ∧ shell_kill_target "4294967297" = some 1 := by
  have h := parse_u32_mod "4294967297" (by decide) (by decide)
  refine ⟨?_, h.2⟩
  rw [h.1]
  decide

/-! ## Line editor claims -/

theorem shiftLeftGo_eq (k : Nat) :
    ∀ (out : Nat → Nat) (i j : Nat),
      shiftLeftGo out i k j = if i ≤ j ∧ j < i + k then out (j + 1) else out j := by
  induction k with
  | zero =>
    intro out i j
    simp only [shiftLeftGo]
    rw [if_neg (by omega)]
  | succ k ih =>
    intro out i j
    simp only [shiftLeftGo]
    rw [ih]
    by_cases h1 : i + 1 ≤ j ∧ j < i + 1 + k
    · rw [if_pos h1, if_pos (by omega), wr_eq]
      rw [if_neg (by omega)]
    · rw [if_neg h1, wr_eq]
      by_cases h2 : j = i
      · subst h2
        rw [if_pos rfl, if_pos (by omega)]
      · rw [if_neg h2, if_neg (by omega)]

theorem shiftRightGo_eq (k : Nat) :
    ∀ (out : Nat → Nat) (i j : Nat), k ≤ i →
      shiftRightGo out i k j = if i - k < j ∧ j ≤ i then out (j - 1) else out j := by
  induction k with
  | zero =>
    intro out i j _
    simp only [shiftRightGo]
    rw [if_neg (by omega)]
  | succ k ih =>
    intro out i j hk
    simp only [shiftRightGo]
    rw [ih _ _ _ (by omega)]
    simp only [wr_eq]
    split_ifs <;> first | rfl | (congr 1; omega)

/-- C9: from an editor state with the cursor at the end of the line
(`cur = len`), room for one more byte (`len + 1 < cap`), and the line
terminator in place (`out[len] = 0`, an invariant of every state
`read_line` builds), a CHAR insertion followed by BACKSPACE restores the
length, the cursor, and every buffer byte up to and including the
terminator position. -/
theorem char_backspace_roundtrip (cap : Nat) (st : ed_state_t) (c : Nat)
    (h1 : st.cur = st.len) (h2 : st.len + 1 < cap) (h3 : st.out st.len = 0) :
    (ed_step cap (ed_step cap st (.char c)) .backspace).len = st.len ∧
    (ed_step cap (ed_step cap st (.char c)) .backspace).cur = st.cur ∧
    ∀ j, j ≤ st.len → (ed_step cap (ed_step cap st (.char c)) .backspace).out j = st.out j := by
  obtain ⟨out, len, cur⟩ := st
  simp only at h1 h2 h3
  subst h1
  simp only [ed_step, if_pos h2, Nat.sub_self, shiftRightGo]
  rw [if_pos (by omega : cur + 1 > 0)]
  refine ⟨by simp, by simp, fun j hj => ?_⟩
  simp only [Nat.add_sub_cancel, Nat.sub_sub_self (by omega : cur ≤ cur + 1)]
  rw [show cur + 1 - cur = 1 by omega]
  rw [shiftLeftGo_eq]
  simp only [wr_eq]
  split_ifs <;>
    first
      | rfl
      | omega
      | (rw [show j = cur from by omega]; exact h3.symm)

theorem char_backspace_roundtrip_witness :
    (ed_step 4 (ed_step 4 { out := fun _ => 0, len := 0, cur := 0 } (.char 65)) .backspace).len = 0 ∧
    (ed_step 4 (ed_step 4 { out := fun _ => 0, len := 0, cur := 0 } (.char 65)) .backspace).cur = 0 ∧
    (ed_step 4 (ed_step 4 { out := fun _ => 0, len := 0, cur := 0 } (.char 65)) .backspace).out 0 = 0 :=
  have h := char_backspace_roundtrip 4 { out := fun _ => 0, len := 0, cur := 0 } 65
    (by decide) (by decide) (by decide)
  ⟨h.1, h.2.1, h.2.2 0 (by decide)⟩

/-- The line-editor invariant of claim C8: cursor within the line, line
within the buffer, terminator at `len`, printable bytes before it. -/
def edInv (cap : Nat) (st : ed_state_t) : Prop :=
  st.cur ≤ st.len ∧ st.len ≤ cap - 1 ∧ st.out st.len = 0 ∧
    ∀ i, i < st.len → 32 ≤ st.out i ∧ st.out i ≤ 126

theorem ed_step_inv (cap : Nat) (st : ed_state_t) (ev : key_event_t)
    (hev : ∀ c, ev = .char c → 32 ≤ c ∧ c ≤ 126) (h : edInv cap st) :
    edInv cap (ed_step cap st ev) := by
  obtain ⟨out, len, cur⟩ := st
  obtain ⟨hcl, hlc, hterm, hpr⟩ := h
  replace hcl : cur ≤ len := hcl
  replace hlc : len ≤ cap - 1 := hlc
  replace hterm : out len = 0 := hterm
  replace hpr : ∀ i, i < len → 32 ≤ out i ∧ out i ≤ 126 := hpr
  cases ev with
  | left =>
    simp only [ed_step]
    split_ifs with hc
    · exact ⟨show cur - 1 ≤ len from by omega, hlc, hterm, hpr⟩
    · exact ⟨hcl, hlc, hterm, hpr⟩
  | right =>
    simp only [ed_step]
    split_ifs with hc
    · have hc2 : cur < len := hc
      exact ⟨show cur + 1 ≤ len from by omega, hlc, hterm, hpr⟩
    · exact ⟨hcl, hlc, hterm, hpr⟩
  | enter => exact ⟨hcl, hlc, hterm, hpr⟩
  | backspace =>
    simp only [ed_step]
    split_ifs with hc
    · have hc2 : 0 < cur := hc
      refine ⟨show cur - 1 ≤ len - 1 from by omega, show len - 1 ≤ cap - 1 from by omega, ?_, ?_⟩
      · show shiftLeftGo out (cur - 1) (len - (cur - 1)) (len - 1) = 0
        rw [shiftLeftGo_eq, if_pos (by omega)]
        rw [show len - 1 + 1 = len from by omega]
        exact hterm
      · intro i hi
        have hi2 : i < len - 1 := hi
        show 32 ≤ shiftLeftGo out (cur - 1) (len - (cur - 1)) i ∧
          shiftLeftGo out (cur - 1) (len - (cur - 1)) i ≤ 126
        rw [shiftLeftGo_eq]
        split_ifs with hin
        · exact hpr (i + 1) (by omega)
        · exact hpr i (by omega)
    · exact ⟨hcl, hlc, hterm, hpr⟩
  | delete =>
    simp only [ed_step]
    split_ifs with hc
    · have hc2 : cur < len := hc
      refine ⟨show cur ≤ len - 1 from by omega, show len - 1 ≤ cap - 1 from by omega, ?_, ?_⟩
      · show shiftLeftGo out cur (len - cur) (len - 1) = 0
        rw [shiftLeftGo_eq, if_pos (by omega)]
        rw [show len - 1 + 1 = len from by omega]
        exact hterm
      · intro i hi
        have hi2 : i < len - 1 := hi
        show 32 ≤ shiftLeftGo out cur (len - cur) i ∧ shiftLeftGo out cur (len - cur) i ≤ 126
        rw [shiftLeftGo_eq]
        split_ifs with hin
        · exact hpr (i + 1) (by omega)
        · exact hpr i (by omega)
    · exact ⟨hcl, hlc, hterm, hpr⟩
  | char c =>
    have hcr := hev c rfl
    simp only [ed_step]
    split_ifs with hc
    · have hc2 : len + 1 < cap := hc
      refine ⟨show cur + 1 ≤ len + 1 from by omega, show len + 1 ≤ cap - 1 from by omega, ?_, ?_⟩
      · show wr (wr (shiftRightGo out len (len - cur)) cur c) (len + 1) 0 (len + 1) = 0
        rw [wr_eq, if_pos rfl]
      · intro i hi
        have hi2 : i < len + 1 := hi
        show 32 ≤ wr (wr (shiftRightGo out len (len - cur)) cur c) (len + 1) 0 i ∧
          wr (wr (shiftRightGo out len (len - cur)) cur c) (len + 1) 0 i ≤ 126
        rw [wr_eq, if_neg (by omega), wr_eq]
        split_ifs with hic
        · exact hcr
        · rw [shiftRightGo_eq _ _ _ _ (by omega : len - cur ≤ len)]
          split_ifs with hin
          · exact hpr (i - 1) (by omega)
          · exact hpr i (by omega)
    · exact ⟨hcl, hlc, hterm, hpr⟩

theorem keyboard_char_range (st : kbd_state_t) (sc c : Nat) (r : kbd_state_t)
    (h : keyboard_try_get_key st sc = (some (.char c), r)) : 32 ≤ c ∧ c ≤ 126 := by
  unfold keyboard_try_get_key at h
  simp only at h
  repeat' split at h
  all_goals simp_all

theorem kbd_events_char_range (scs : List Nat) :
    ∀ (st : kbd_state_t) (c : Nat), key_event_t.char c ∈ kbd_events st scs → 32 ≤ c ∧ c ≤ 126 := by
  induction scs with
  | nil => intro st c h; simp [kbd_events] at h
  | cons sc rest ih =>
    intro st c h
    rw [kbd_events] at h
    rcases hk : keyboard_try_get_key st sc with ⟨oev, st2⟩
    rw [hk] at h
    match oev, h with
    | some ev, h =>
      simp only at h
      rcases List.mem_cons.mp h with he | hm
      · subst he; exact keyboard_char_range st sc c st2 hk
      · exact ih st2 c hm
    | none, h =>
      simp only at h
      exact ih st2 c h

theorem read_line_go_enter (cap : Nat) (st : ed_state_t) (rest : List key_event_t) :
    read_line_go cap st (.enter :: rest) = { st with out := wr st.out st.len 0 } := rfl

theorem read_line_go_cons (cap : Nat) (st : ed_state_t) (ev : key_event_t)
    (rest : List key_event_t) (hne : ev ≠ .enter) :
    read_line_go cap st (ev :: rest) = read_line_go cap (ed_step cap st ev) rest := by
  cases ev with
  | enter => exact absurd rfl hne
  | char c => rfl
  | backspace => rfl
  | left => rfl
  | right => rfl
  | delete => rfl

theorem read_line_go_inv (evs : List key_event_t) :
    ∀ (cap : Nat) (st : ed_state_t),
      (∀ c, key_event_t.char c ∈ evs → 32 ≤ c ∧ c ≤ 126) →
      edInv cap st → edInv cap (read_line_go cap st evs) := by
  induction evs with
  | nil => intro cap st _ h; exact h
  | cons ev rest ih =>
    intro cap st hchars h
    by_cases hev : ev = .enter
    · subst hev
      rw [read_line_go_enter]
      obtain ⟨hcl, hlc, hterm, hpr⟩ := h
      refine ⟨hcl, hlc, ?_, ?_⟩
      · dsimp only
        rw [wr_eq, if_pos rfl]
      · intro i hi
        dsimp only at hi ⊢
        rw [wr_eq, if_neg (by omega)]
        exact hpr i hi
    · rw [read_line_go_cons cap st ev rest hev]
      refine ih cap _ (fun x hx => hchars x (List.mem_cons_of_mem _ hx)) ?_
      refine ed_step_inv cap st ev (fun x hx => ?_) h
      exact hchars x (by rw [hx]; exact List.mem_cons_self _ _)

theorem ed_init_inv (cap : Nat) (out0 : Nat → Nat) :
    edInv cap { out := wr out0 0 0, len := 0, cur := 0 } := by
  refine ⟨le_refl 0, Nat.zero_le _, ?_, fun i hi => absurd hi (Nat.not_lt_zero i)⟩
  show wr out0 0 0 0 = 0
  rw [wr_eq, if_pos rfl]

/-- C8: for every keyboard byte sequence whose event stream reaches ENTER,
the buffer `read_line` returns is null-terminated at index `len` with only
printable bytes `[32, 126]` before the terminator and `len ≤ cap - 1`; and
the invariant `cur ≤ len ≤ cap - 1` (with termination and printability)
holds after every event step before the ENTER. -/
theorem read_line_inv (cap : Nat) (_hcap : 1 ≤ cap) (kst : kbd_state_t) (scs : List Nat)
    (out0 : Nat → Nat) (_hent : key_event_t.enter ∈ kbd_events kst scs) :
    edInv cap (read_line cap out0 (kbd_events kst scs)) ∧
    ∀ p q, kbd_events kst scs = p ++ q →
      edInv cap (read_line_go cap { out := wr out0 0 0, len := 0, cur := 0 } p) := by
  constructor
  · exact read_line_go_inv (kbd_events kst scs) cap _
      (fun c hc => kbd_events_char_range scs kst c hc) (ed_init_inv cap out0)
  · intro p q hpq
    refine read_line_go_inv p cap _ (fun c hc => ?_) (ed_init_inv cap out0)
    exact kbd_events_char_range scs kst c (hpq ▸ List.mem_append_left q hc)

/-- Witness for C8: typing `hi` then ENTER (scancodes 0x23, 0x17, 0x1C)
into a 128-byte buffer. -/
theorem read_line_inv_witness :
    (read_line 128 (fun _ => 7) (kbd_events ⟨false, false⟩ [35, 23, 28])).len ≤ 127 ∧
    (read_line 128 (fun _ => 7) (kbd_events ⟨false, false⟩ [35, 23, 28])).out
      (read_line 128 (fun _ => 7) (kbd_events ⟨false, false⟩ [35, 23, 28])).len = 0 :=
  have h := read_line_inv 128 (by decide) ⟨false, false⟩ [35, 23, 28] (fun _ => 7) (by decide)
  ⟨h.1.2.1, h.1.2.2.1⟩

end OS
